import Mathlib

/-!
# Verification of the climage routing / normalization layer

Shallow embedding of the core of the `climage` repository (TypeScript) in
Lean 4, together with theorems settling the frozen claims about the
natural-language specification.

Modelling conventions:
* JavaScript strings are modelled as `List Char` (`Str` below); all string
  operations (trim, lowercase, regex-like replacements) are written as
  explicit recursive functions mirroring the corresponding JS expressions.
* JS numbers appearing as counts/indices are modelled as `Nat`; numbers that
  may be fractional (the `n` option before flooring, video durations) are
  modelled as `ℚ` (NaN/Infinity are out of the model; all operations used by
  the code — floor, min, max, comparisons — agree with IEEE doubles on
  finite values of the magnitudes involved).
* Optional fields are `Option _`; JS truthiness of an optional string
  (`if (x)`) is `x = some s` with `s ≠ []`.
* Byte payloads (`Uint8Array`, `Buffer`) are `List Nat` with every element
  `< 256`.
* Effectful steps (HTTP fetches, file reads, the filesystem) are passed in
  explicitly: the file system is a function `Str → Option (List Nat)`, an
  async polling endpoint is a function from attempt number to the parsed
  JSON it returns, and the persistence step is modelled as the pure
  computation of the file paths and result records.
-/

/-- A JavaScript string, modelled as its list of characters. -/
abbrev Str := List Char

/-- Coerce a Lean string literal to the `Str` model. -/
def str (x : String) : Str := x.data

/-! ## Character classes and elementary string operations (src/core/strings.ts) -/

/-- JS whitespace (the part of the `\s` class and `String.prototype.trim`
exercised by this code base: ASCII whitespace). -/
def isWs (c : Char) : Bool :=
  c = ' ' || c = '\t' || c = '\n' || c = '\r' || c = '\x0b' || c = '\x0c'

/-- ASCII decimal digit, the JS `\d` class. -/
def isDigit (c : Char) : Bool := '0' ≤ c && c ≤ '9'

/-- Lowercase ASCII letter or digit: the complement of the
`/[^a-z0-9]/` class used by `slugify`. -/
def isLowerAlnum (c : Char) : Bool :=
  ('a' ≤ c && c ≤ 'z') || ('0' ≤ c && c ≤ '9')

/-- A character that can occur in a slug: lowercase alphanumeric or `-`. -/
def isSlugChar (c : Char) : Bool := isLowerAlnum c || c = '-'

/-- The quote characters removed by `slugify` (`/['"`]/g`). -/
def isQuote (c : Char) : Bool := c = '\'' || c = '"' || c = '`'

/-- ASCII lowercasing of one character, as `String.prototype.toLowerCase`
acts on ASCII input.  (JS also lowercases non-ASCII letters; every
non-ASCII character is collapsed to `-` by the subsequent `slugify` steps
either way, so this restriction is not observable in slug outputs.) -/
def toLowerJS (c : Char) : Char :=
  if 'A' ≤ c && c ≤ 'Z' then Char.ofNat (c.toNat + 32) else c

/-- Drop trailing characters satisfying `p` (structural version of
`s.replace(/X+$/,'')` for a character class `X`). -/
def dropTrailing (p : Char → Bool) : Str → Str
  | [] => []
  | c :: rest =>
    let r := dropTrailing p rest
    if p c && r.isEmpty then [] else c :: r

/-- `String.prototype.trim`: strip leading and trailing whitespace. -/
def jsTrim (l : Str) : Str := dropTrailing isWs (l.dropWhile isWs)

/-- Collapse every maximal run of non-`[a-z0-9]` characters to a single
`-`: the effect of `.replace(/[^a-z0-9]+/g, '-')`.  The boolean flag
records whether we are inside such a run (its `-` already emitted). -/
def collapseRuns : Bool → Str → Str
  | _, [] => []
  | inRun, c :: rest =>
    if isLowerAlnum c then c :: collapseRuns false rest
    else if inRun then collapseRuns inRun rest
    else '-' :: collapseRuns true rest

/--
`slugify` from src/core/strings.ts (snapshot src/unnamed/part_004):

```ts
export function slugify(input: string, maxLen = 60): string {
  const s = input.trim().toLowerCase()
    .replace(QUOTES, '')            // QUOTES    = the single/double/back quote class, global
    .replace(NON_ALNUM_RUN, '-')    // NON_ALNUM_RUN = one or more chars outside [a-z0-9], global
    .replace(EDGE_HYPHENS, '')      // EDGE_HYPHENS  = leading or trailing hyphen runs, global
  if (!s) return 'image'
  return s.length > maxLen ? s.slice(0, maxLen).replace(TRAILING_HYPHENS, '') : s
}
```
(The regex literals are spelled out as named classes above because Lean
comments cannot contain the raw regex text.)
-/
def slugify (input : Str) (maxLen : Nat := 60) : Str :=
  let s0 := (jsTrim input).map toLowerJS
  let s1 := s0.filter (fun c => !isQuote c)
  let s2 := collapseRuns false s1
  let s := dropTrailing (· = '-') (s2.dropWhile (· = '-'))
  if s.isEmpty then str "image"
  else if maxLen < s.length then dropTrailing (· = '-') (s.take maxLen)
  else s

/-! ### Invariants of slug strings -/

/-- No two adjacent hyphens. -/
def noHH : Str → Bool
  | a :: b :: t => !(a = '-' && b = '-') && noHH (b :: t)
  | _ => true

/-- Case analysis on slug characters. -/
theorem slugChar_cases {c : Char} (h : isSlugChar c = true) :
    ('a' ≤ c ∧ c ≤ 'z') ∨ ('0' ≤ c ∧ c ≤ '9') ∨ c = '-' := by
  simpa only [isSlugChar, isLowerAlnum, Bool.or_eq_true, Bool.and_eq_true,
    decide_eq_true_eq, or_assoc] using h

theorem isSlugChar_not_ws {c : Char} (h : isSlugChar c = true) : isWs c = false := by
  rw [Bool.eq_false_iff]
  intro hw
  simp only [isWs, Bool.or_eq_true, decide_eq_true_eq] at hw
  rcases slugChar_cases h with ⟨h1, h2⟩ | ⟨h1, h2⟩ | h1 <;>
    rcases hw with ((((hw | hw) | hw) | hw) | hw) | hw <;>
    subst hw <;>
    first
      | exact absurd h1 (by decide)
      | exact absurd h2 (by decide)

theorem isSlugChar_not_quote {c : Char} (h : isSlugChar c = true) : isQuote c = false := by
  rw [Bool.eq_false_iff]
  intro hw
  simp only [isQuote, Bool.or_eq_true, decide_eq_true_eq] at hw
  rcases slugChar_cases h with ⟨h1, h2⟩ | ⟨h1, h2⟩ | h1 <;>
    rcases hw with (hw | hw) | hw <;>
    subst hw <;>
    first
      | exact absurd h1 (by decide)
      | exact absurd h2 (by decide)

theorem isSlugChar_toLower {c : Char} (h : isSlugChar c = true) : toLowerJS c = c := by
  unfold toLowerJS
  rw [if_neg]
  simp only [Bool.and_eq_true, decide_eq_true_eq, not_and]
  intro hA hZ
  rcases slugChar_cases h with ⟨h1, _⟩ | ⟨_, h2⟩ | h1
  · exact absurd (le_trans h1 hZ) (by decide)
  · exact absurd (le_trans hA h2) (by decide)
  · subst h1; exact absurd hA (by decide)

theorem isLowerAlnum_ne_hyphen {c : Char} (h : isLowerAlnum c = true) : c ≠ '-' := by
  rintro rfl; revert h; decide

/-! ### Generic lemmas about the string helpers -/

/-- The last character of `l`, tested against `p` (`false` on empty). -/
def lastSat (p : Char → Bool) : Str → Bool
  | [] => false
  | [c] => p c
  | _ :: c :: rest => lastSat p (c :: rest)

theorem lastSat_cons (p : Char → Bool) (c : Char) {l : Str} (h : l ≠ []) :
    lastSat p (c :: l) = lastSat p l := by
  cases l with
  | nil => exact absurd rfl h
  | cons d t => rfl

theorem mem_dropTrailing {p : Char → Bool} {l : Str} {a : Char}
    (h : a ∈ dropTrailing p l) : a ∈ l := by
  induction l with
  | nil => simpa [dropTrailing] using h
  | cons c rest ih =>
    simp only [dropTrailing] at h
    split at h
    · simp at h
    · rcases List.mem_cons.mp h with rfl | h2
      · exact List.mem_cons_self _ _
      · exact List.mem_cons_of_mem _ (ih h2)

theorem length_dropTrailing_le (p : Char → Bool) (l : Str) :
    (dropTrailing p l).length ≤ l.length := by
  induction l with
  | nil => simp [dropTrailing]
  | cons c rest ih =>
    simp only [dropTrailing]
    split
    · simp
    · simpa using ih

theorem head?_dropTrailing {p : Char → Bool} {l : Str} {d : Char}
    (h : (dropTrailing p l).head? = some d) : l.head? = some d := by
  cases l with
  | nil => simp [dropTrailing] at h
  | cons c rest =>
    simp only [dropTrailing] at h
    split at h
    · simp at h
    · simpa using h

theorem lastSat_dropTrailing (p : Char → Bool) (l : Str) :
    lastSat p (dropTrailing p l) = false := by
  induction l with
  | nil => simp [dropTrailing, lastSat]
  | cons c rest ih =>
    simp only [dropTrailing]
    split
    · simp [lastSat]
    · rename_i hcond
      by_cases hr : dropTrailing p rest = []
      · rw [hr]
        rw [hr] at hcond
        simp only [List.isEmpty_nil, Bool.and_true] at hcond
        simpa [lastSat] using hcond
      · rw [lastSat_cons p c hr]
        exact ih

theorem dropTrailing_eq_self {p : Char → Bool} {l : Str} (h : lastSat p l = false) :
    dropTrailing p l = l := by
  induction l with
  | nil => rfl
  | cons c rest ih =>
    cases rest with
    | nil =>
      simp only [lastSat] at h
      simp [dropTrailing, h]
    | cons d t =>
      have h' : lastSat p (d :: t) = false := by
        rw [lastSat_cons p c (by simp)] at h
        exact h
      have hd : dropTrailing p (d :: t) = d :: t := ih h'
      rw [show dropTrailing p (c :: d :: t)
            = if p c && (dropTrailing p (d :: t)).isEmpty then []
              else c :: dropTrailing p (d :: t) from rfl]
      rw [hd]
      simp

theorem dropTrailing_ne_nil {p : Char → Bool} {c : Char} {l : Str} (h : p c = false) :
    dropTrailing p (c :: l) ≠ [] := by
  simp [dropTrailing, h]

theorem dropWhile_eq_self_of_head {p : Char → Bool} {l : Str}
    (h : ∀ d, l.head? = some d → p d = false) : l.dropWhile p = l := by
  cases l with
  | nil => rfl
  | cons c rest => simp [List.dropWhile_cons, h c rfl]

theorem head?_dropWhile_false {p : Char → Bool} {l : Str} {d : Char}
    (h : (l.dropWhile p).head? = some d) : p d = false := by
  induction l with
  | nil => simp at h
  | cons c rest ih =>
    rw [List.dropWhile_cons] at h
    split at h
    · exact ih h
    · rename_i hc
      simp only [List.head?_cons, Option.some.injEq] at h
      subst h
      exact Bool.not_eq_true _ ▸ hc

/-! ### `noHH`: absence of adjacent hyphen pairs -/

theorem noHH_tail {c : Char} {l : Str} (h : noHH (c :: l) = true) : noHH l = true := by
  cases l with
  | nil => rfl
  | cons d t =>
    simp only [noHH, Bool.and_eq_true] at h
    exact h.2

theorem noHH_cons {c : Char} {l : Str} (hl : noHH l = true)
    (hp : ∀ d, l.head? = some d → ¬(c = '-' ∧ d = '-')) : noHH (c :: l) = true := by
  cases l with
  | nil => rfl
  | cons d t =>
    simp only [noHH, Bool.and_eq_true]
    refine ⟨?_, hl⟩
    simp only [Bool.not_eq_true', Bool.and_eq_false_iff, decide_eq_false_iff_not]
    have := hp d rfl
    by_cases hc : c = '-'
    · exact Or.inr (fun hd => this ⟨hc, hd⟩)
    · exact Or.inl hc

theorem noHH_pair {c d : Char} {l : Str} (h : noHH (c :: d :: l) = true) :
    ¬(c = '-' ∧ d = '-') := by
  simp only [noHH, Bool.and_eq_true, Bool.not_eq_true', Bool.and_eq_false_iff,
    decide_eq_false_iff_not] at h
  rcases h.1 with h1 | h1 <;> rintro ⟨rfl, rfl⟩ <;> exact h1 rfl

theorem noHH_dropWhile (p : Char → Bool) {l : Str} (h : noHH l = true) :
    noHH (l.dropWhile p) = true := by
  induction l with
  | nil => exact h
  | cons c rest ih =>
    rw [List.dropWhile_cons]
    split
    · exact ih (noHH_tail h)
    · exact h

theorem noHH_dropTrailing (p : Char → Bool) {l : Str} (h : noHH l = true) :
    noHH (dropTrailing p l) = true := by
  induction l with
  | nil => exact h
  | cons c rest ih =>
    simp only [dropTrailing]
    split
    · rfl
    · refine noHH_cons (ih (noHH_tail h)) ?_
      intro d hd
      have hd' := head?_dropTrailing hd
      cases rest with
      | nil => simp at hd'
      | cons e t =>
        simp only [List.head?_cons, Option.some.injEq] at hd'
        subst hd'
        exact noHH_pair h

theorem noHH_take (n : Nat) {l : Str} (h : noHH l = true) : noHH (l.take n) = true := by
  induction l generalizing n with
  | nil => simp [List.take_nil]; rfl
  | cons c rest ih =>
    cases n with
    | zero => rfl
    | succ m =>
      rw [List.take_succ_cons]
      refine noHH_cons (ih m (noHH_tail h)) ?_
      intro d hd
      cases rest with
      | nil => simp at hd
      | cons e t =>
        cases m with
        | zero => simp at hd
        | succ k =>
          rw [List.take_succ_cons] at hd
          simp only [List.head?_cons, Option.some.injEq] at hd
          subst hd
          exact noHH_pair h

/-! ### Properties of `collapseRuns` -/

theorem isSlugChar_of_alnum {c : Char} (h : isLowerAlnum c = true) : isSlugChar c = true := by
  simp [isSlugChar, h]

theorem all_collapseRuns (flag : Bool) (l : Str) :
    (collapseRuns flag l).all isSlugChar = true := by
  induction l generalizing flag with
  | nil => rfl
  | cons c rest ih =>
    simp only [collapseRuns]
    split
    · rename_i hc
      simp only [List.all_cons, Bool.and_eq_true]
      exact ⟨isSlugChar_of_alnum hc, ih false⟩
    · split
      · exact ih flag
      · simp only [List.all_cons, Bool.and_eq_true]
        exact ⟨by decide, ih true⟩

theorem head_collapseRuns_true {l : Str} {d : Char}
    (h : (collapseRuns true l).head? = some d) : isLowerAlnum d = true := by
  induction l with
  | nil => simp [collapseRuns] at h
  | cons c rest ih =>
    by_cases hc : isLowerAlnum c = true
    · rw [show collapseRuns true (c :: rest) = c :: collapseRuns false rest from by
        simp [collapseRuns, hc]] at h
      simp only [List.head?_cons, Option.some.injEq] at h
      subst h
      exact hc
    · rw [show collapseRuns true (c :: rest) = collapseRuns true rest from by
        simp [collapseRuns, hc]] at h
      exact ih h

theorem noHH_collapseRuns (flag : Bool) (l : Str) : noHH (collapseRuns flag l) = true := by
  induction l generalizing flag with
  | nil => rfl
  | cons c rest ih =>
    simp only [collapseRuns]
    split
    · rename_i hc
      refine noHH_cons (ih false) ?_
      rintro d _ ⟨rfl, _⟩
      exact isLowerAlnum_ne_hyphen hc rfl
    · split
      · exact ih flag
      · refine noHH_cons (ih true) ?_
        rintro d hd ⟨_, rfl⟩
        exact isLowerAlnum_ne_hyphen (head_collapseRuns_true hd) rfl

theorem isSlugChar_hyphen_of_not_alnum {c : Char} (hs : isSlugChar c = true)
    (hc : ¬ isLowerAlnum c = true) : c = '-' := by
  simp only [isSlugChar, Bool.or_eq_true, decide_eq_true_eq] at hs
  exact hs.resolve_left hc

theorem collapseRuns_eq_self {l : Str} (hall : l.all isSlugChar = true)
    (hnoHH : noHH l = true) :
    collapseRuns false l = l ∧ (l.head? ≠ some '-' → collapseRuns true l = l) := by
  induction l with
  | nil => exact ⟨rfl, fun _ => rfl⟩
  | cons c rest ih =>
    simp only [List.all_cons, Bool.and_eq_true] at hall
    obtain ⟨hc, hrest⟩ := hall
    obtain ⟨ih1, ih2⟩ := ih hrest (noHH_tail hnoHH)
    by_cases halnum : isLowerAlnum c = true
    · constructor
      · simp only [collapseRuns, if_pos halnum, ih1]
      · intro _
        simp only [collapseRuns, if_pos halnum, ih1]
    · have hch : c = '-' := isSlugChar_hyphen_of_not_alnum hc halnum
      have hhead : rest.head? ≠ some '-' := by
        cases rest with
        | nil => simp
        | cons d t =>
          simp only [List.head?_cons, ne_eq, Option.some.injEq]
          intro hd
          exact noHH_pair hnoHH ⟨hch, hd⟩
      constructor
      · subst hch
        rw [show collapseRuns false ('-' :: rest) = '-' :: collapseRuns true rest from by
          simp [collapseRuns, show isLowerAlnum '-' = false from by decide]]
        rw [ih2 hhead]
      · intro hhead2
        subst hch
        exact absurd rfl hhead2

/-! ### The slug invariant and idempotence of `slugify` (claim C9) -/

/-- Invariant satisfied by every `slugify` output: only slug characters,
no adjacent hyphens, no leading and no trailing hyphen. -/
def SlugGood (l : Str) : Prop :=
  l.all isSlugChar = true ∧ noHH l = true ∧
    l.head? ≠ some '-' ∧ lastSat (· = '-') l = false

theorem lastSat_false_of_all {p : Char → Bool} {l : Str}
    (h : ∀ c ∈ l, p c = false) : lastSat p l = false := by
  induction l with
  | nil => rfl
  | cons c rest ih =>
    cases rest with
    | nil => exact h c (List.mem_cons_self _ _)
    | cons d t =>
      rw [lastSat_cons p c (by simp)]
      exact ih fun e he => h e (List.mem_cons_of_mem _ he)

theorem all_dropWhile (p q : Char → Bool) (l : Str) (h : l.all q = true) :
    (l.dropWhile p).all q = true := by
  induction l with
  | nil => exact h
  | cons c rest ih =>
    rw [List.dropWhile_cons]
    simp only [List.all_cons, Bool.and_eq_true] at h
    split
    · exact ih h.2
    · simp only [List.all_cons, Bool.and_eq_true]
      exact h

theorem all_dropTrailing (p q : Char → Bool) (l : Str) (h : l.all q = true) :
    (dropTrailing p l).all q = true := by
  rw [List.all_eq_true] at h ⊢
  exact fun c hc => h c (mem_dropTrailing hc)

theorem all_take (q : Char → Bool) (n : Nat) (l : Str) (h : l.all q = true) :
    (l.take n).all q = true := by
  rw [List.all_eq_true] at h ⊢
  exact fun c hc => h c ((List.take_sublist n l).subset hc)

theorem head?_take {l : Str} {n : Nat} (hn : 0 < n) : (l.take n).head? = l.head? := by
  cases l with
  | nil => simp
  | cons c rest =>
    cases n with
    | zero => exact absurd hn (by simp)
    | succ m => simp [List.take_succ_cons]

/-- The core of `slugify` before the empty/overlength fixups: trim,
lowercase, strip quotes, collapse non-alphanumeric runs, strip edge
hyphens. -/
def slugCore (input : Str) : Str :=
  dropTrailing (· = '-')
    ((collapseRuns false
        (((jsTrim input).map toLowerJS).filter (fun c => !isQuote c))).dropWhile (· = '-'))

theorem slugify_eq_core (input : Str) (maxLen : Nat) :
    slugify input maxLen =
      if (slugCore input).isEmpty then str "image"
      else if maxLen < (slugCore input).length then
        dropTrailing (· = '-') ((slugCore input).take maxLen)
      else slugCore input := rfl

theorem slugCore_good (x : Str) :
    (slugCore x).all isSlugChar = true ∧ noHH (slugCore x) = true ∧
      (∀ d, (slugCore x).head? = some d → ¬ d = '-') ∧
      lastSat (· = '-') (slugCore x) = false := by
  refine ⟨all_dropTrailing _ _ _ (all_dropWhile _ _ _ (all_collapseRuns false _)),
    noHH_dropTrailing _ (noHH_dropWhile _ (noHH_collapseRuns false _)),
    ?_, lastSat_dropTrailing _ _⟩
  intro d hd
  have hd' := head?_dropTrailing hd
  have := head?_dropWhile_false hd'
  simpa using this

/-- Every `slugify` output (at the default maximum length) satisfies the
slug invariant, is nonempty, and has length at most 60. -/
theorem slugify_good (x : Str) :
    SlugGood (slugify x) ∧ slugify x ≠ [] ∧ (slugify x).length ≤ 60 := by
  obtain ⟨hall, hnoHH, hhead, hlast⟩ := slugCore_good x
  rw [show slugify x = slugify x 60 from rfl, slugify_eq_core]
  set s := slugCore x with hs
  by_cases hempty : s.isEmpty = true
  · rw [if_pos hempty]
    refine ⟨⟨by decide, by decide, by decide, by decide⟩, by decide, by decide⟩
  · rw [if_neg hempty]
    have hne : s ≠ [] := fun h => hempty (by simp [h])
    by_cases hlen : 60 < s.length
    · rw [if_pos hlen]
      set t := s.take 60 with ht
      have htall : t.all isSlugChar = true := all_take _ _ _ hall
      have htnoHH : noHH t = true := noHH_take _ hnoHH
      have hthead : t.head? = s.head? := head?_take (by omega)
      refine ⟨⟨all_dropTrailing _ _ _ htall,
              noHH_dropTrailing _ htnoHH, ?_, lastSat_dropTrailing _ _⟩, ?_, ?_⟩
      · intro hcontra
        have hd' := head?_dropTrailing hcontra
        rw [hthead] at hd'
        exact hhead _ hd' rfl
      · obtain ⟨c, rest, hcons⟩ := List.exists_cons_of_ne_nil hne
        have hhc : ¬ c = '-' := hhead c (by rw [hcons]; rfl)
        have htc : t = c :: rest.take 59 := by rw [ht, hcons]; rfl
        rw [htc]
        exact dropTrailing_ne_nil (by simpa using hhc)
      · have h1 : (dropTrailing (· = '-') t).length ≤ t.length :=
          length_dropTrailing_le _ _
        have h2 : t.length ≤ 60 := by
          rw [ht, List.length_take]
          omega
        omega
    · rw [if_neg hlen]
      exact ⟨⟨hall, hnoHH, fun h => hhead _ h rfl, hlast⟩, hne, by omega⟩

/-- `slugify` is the identity on nonempty slug-invariant strings of length
at most 60. -/
theorem slugify_fix {l : Str} (hg : SlugGood l) (hne : l ≠ []) (hlen : l.length ≤ 60) :
    slugify l = l := by
  obtain ⟨hall, hnoHH, hhead, hlast⟩ := hg
  have hmem : ∀ c ∈ l, isSlugChar c = true := List.all_eq_true.mp hall
  have htrim : jsTrim l = l := by
    unfold jsTrim
    rw [dropWhile_eq_self_of_head, dropTrailing_eq_self]
    · exact lastSat_false_of_all fun c hc => isSlugChar_not_ws (hmem c hc)
    · intro d hd
      exact isSlugChar_not_ws (hmem d (by
        cases l with
        | nil => simp at hd
        | cons c t =>
          simp only [List.head?_cons, Option.some.injEq] at hd
          subst hd
          exact List.mem_cons_self _ _))
  have hlower : l.map toLowerJS = l := by
    rw [List.map_congr_left fun a ha => isSlugChar_toLower (hmem a ha), List.map_id']
  have hfilter : l.filter (fun c => !isQuote c) = l :=
    List.filter_eq_self.mpr fun a ha => by
      simp [isSlugChar_not_quote (hmem a ha)]
  have hcollapse : collapseRuns false l = l := (collapseRuns_eq_self hall hnoHH).1
  have hdropW : l.dropWhile (· = '-') = l := by
    refine dropWhile_eq_self_of_head ?_
    intro d hd
    simpa using fun h => hhead (by rw [hd, h])
  have hdropT : dropTrailing (· = '-') l = l := dropTrailing_eq_self hlast
  have hcore : slugCore l = l := by
    unfold slugCore
    rw [htrim, hlower, hfilter, hcollapse, hdropW, hdropT]
  rw [show slugify l = slugify l 60 from rfl, slugify_eq_core, hcore]
  rw [if_neg (by simp [List.isEmpty_iff, hne]), if_neg (by omega)]

/-- C9: slugification is idempotent — for every input string `x`,
`slugify (slugify x) = slugify x` (at the default maximum length used by
the normalizer). -/
theorem slugify_idempotent (x : Str) : slugify (slugify x) = slugify x := by
  obtain ⟨hg, hne, hlen⟩ := slugify_good x
  exact slugify_fix hg hne hlen

/-! ## Data model (src/core/types.ts, current snapshot) -/

/-- `MediaKind` from src/core/types.ts. -/
inductive MediaKind where
  | image
  | video
deriving DecidableEq, Repr

/-- `OutputFormat = ImageFormat | VideoFormat` from src/core/types.ts. -/
inductive OutputFormat where
  | png
  | jpg
  | webp
  | mp4
  | webm
  | gif
deriving DecidableEq, Repr

/--
`GenerateRequest` from src/core/types.ts (current snapshot, with the
input-image / video fields).  The provider selector is modelled as a raw
string: the CLI casts an arbitrary `--provider` argument into this field
without a runtime check, so at runtime it ranges over all strings.
`duration` is a JS number (may be fractional), modelled as `ℚ`; `n` is
produced by the normalizer as an integer in `[1, 10]`, modelled as `Nat`.
-/
structure GenerateRequest where
  prompt : Str
  provider : Str
  model : Option Str
  n : Nat
  aspectRatio : Option Str
  kind : MediaKind
  format : OutputFormat
  outDir : Str
  out : Option Str
  nameBase : Str
  timestamp : Str
  verbose : Bool
  inputImages : Option (List Str)
  startFrame : Option Str
  endFrame : Option Str
  duration : Option ℚ
deriving DecidableEq

/-- `GeneratedMediaPartial` from src/core/types.ts: adapter output before
the router assigns a file path.  `bytes` is the raw payload (`Uint8Array`),
modelled as a list of byte values. -/
structure GeneratedMediaPartial where
  kind : MediaKind
  provider : Str
  model : Option Str
  index : Nat
  url : Option Str
  bytes : List Nat
  mimeType : Option Str
deriving DecidableEq

/-- `GeneratedMedia`: a partial plus the resolved output file path. -/
structure GeneratedMedia extends GeneratedMediaPartial where
  filePath : Str
deriving DecidableEq

/-! ## Path helpers (node:path, as used by src/core/output.ts)

`path.resolve` / `path.join` additionally normalize `.`/`..` segments and
duplicate separators; none of the claims depend on that normalization, so
the embedding keeps the plain concatenation semantics. -/

def isAbsolutePath (p : Str) : Bool := p.head? = some '/'

/-- `path.resolve(cwd, p)` (segment normalization omitted). -/
def resolvePath (cwd p : Str) : Str :=
  if isAbsolutePath p then p else cwd ++ str "/" ++ p

/-- `path.join(a, b)` (segment normalization omitted). -/
def pathJoin (a b : Str) : Str := a ++ str "/" ++ b

/-- `path.isAbsolute(outDir) ? outDir : path.resolve(process.cwd(), outDir)`
from `resolveOutDir` in src/core/output.ts. -/
def resolveOutDir (cwd outDir : Str) : Str :=
  if isAbsolutePath outDir then outDir else resolvePath cwd outDir

/-! ## Decimal rendering of indices (`String(i).padStart(2, '0')`) -/

def digitChar (n : Nat) : Char := Char.ofNat (48 + n)

/-- Decimal digit string of a natural number, as JS `String(n)` renders
integers. -/
def natDigits (n : Nat) : Str :=
  if h : n < 10 then [digitChar n] else natDigits (n / 10) ++ [digitChar (n % 10)]
decreasing_by exact Nat.div_lt_self (by omega) (by omega)

/-- `s.padStart(2, '0')`. -/
def padStart2 (s : Str) : Str :=
  if s.length < 2 then List.replicate (2 - s.length) '0' ++ s else s

/-- The zero-padded batch suffix digits: `String(i).padStart(2, '0')`. -/
def padIndex (i : Nat) : Str := padStart2 (natDigits i)

/-- One step of decimal parsing (the left inverse used to prove
injectivity of `padIndex`). -/
def parseStep (acc : Nat) (c : Char) : Nat := acc * 10 + (c.toNat - 48)

def parseNat (s : Str) : Nat := s.foldl parseStep 0

theorem parseStep_digitChar {d : Nat} (hd : d < 10) (a : Nat) :
    parseStep a (digitChar d) = a * 10 + d := by
  have : ∀ e, e < 10 → (digitChar e).toNat - 48 = e := by decide
  simp [parseStep, this d hd]

theorem foldl_parseStep_natDigits (n : Nat) :
    ∀ a, List.foldl parseStep a (natDigits n) = a * 10 ^ (natDigits n).length + n := by
  induction n using Nat.strong_induction_on with
  | _ n ih =>
    intro a
    rw [natDigits]
    split
    · rename_i h
      simp [List.foldl, parseStep_digitChar h]
    · rename_i h
      have hdiv : n / 10 < n := Nat.div_lt_self (by omega) (by omega)
      rw [List.foldl_append, ih _ hdiv, List.length_append]
      simp only [List.foldl, List.length_singleton]
      rw [parseStep_digitChar (Nat.mod_lt _ (by omega))]
      have := Nat.div_add_mod n 10
      ring_nf
      omega

theorem parseNat_natDigits (n : Nat) : parseNat (natDigits n) = n := by
  have := foldl_parseStep_natDigits n 0
  simpa [parseNat] using this

theorem foldl_parseStep_replicate_zero (k : Nat) :
    List.foldl parseStep 0 (List.replicate k '0') = 0 := by
  induction k with
  | zero => rfl
  | succ m ih =>
    rw [List.replicate_succ]
    simpa [List.foldl, parseStep] using ih

theorem parseNat_padIndex (i : Nat) : parseNat (padIndex i) = i := by
  unfold padIndex padStart2
  split
  · unfold parseNat
    rw [List.foldl_append, foldl_parseStep_replicate_zero]
    exact parseNat_natDigits i
  · exact parseNat_natDigits i

theorem padIndex_injective {i j : Nat} (h : padIndex i = padIndex j) : i = j := by
  have := parseNat_padIndex i
  rw [h, parseNat_padIndex] at this
  omega

/-! ## Output paths (src/core/output.ts, current snapshot) -/

/-- `extensionForFormat` from src/core/output.ts: the extension is a pure
function of the requested output format. -/
def extensionForFormat : OutputFormat → Str
  | .jpg => str "jpg"
  | .png => str "png"
  | .webp => str "webp"
  | .mp4 => str "mp4"
  | .webm => str "webm"
  | .gif => str "gif"

/--
`makeOutputPath` from src/core/output.ts:

```ts
export function makeOutputPath(req: GenerateRequest, index: number): string {
  const ext = extensionForFormat(req.format);
  if (req.out) return path.resolve(process.cwd(), req.out);
  const base = `${req.nameBase}-${req.timestamp}`;
  const suffix = req.n > 1 ? `-${String(index + 1).padStart(2, '0')}` : '';
  const filename = `${base}${suffix}.${ext}`;
  return path.join(req.outDir, filename);
}
```

The `if (req.out)` early return fires for any truthy `req.out` — before
and regardless of the batch-size test on `req.n`.
-/
def makeOutputPath (cwd : Str) (req : GenerateRequest) (index : Nat) : Str :=
  let ext := extensionForFormat req.format
  let base := req.nameBase ++ str "-" ++ req.timestamp
  let suffix := if 1 < req.n then str "-" ++ padIndex (index + 1) else []
  let filename := base ++ suffix ++ str "." ++ ext
  match req.out with
  | some o => if o.isEmpty then pathJoin req.outDir filename else resolvePath cwd o
  | none => pathJoin req.outDir filename

/--
The persistence loop of `generateMedia` (src/unnamed/part_003, the current
router snapshot):

```ts
const items: GeneratedMedia[] = [];
for (let i = 0; i < partials.length; i++) {
  const p: GeneratedMediaPartial | undefined = partials[i];
  if (!p) continue;
  const filePath = makeOutputPath(req, i);
  await writeMediaFile(filePath, p.bytes);
  items.push({ ...p, filePath });
}
return items;
```

`writeMediaFile` writes `p.bytes` to `filePath` (creating parent
directories); only the returned records matter for the claims, so the
write itself is not modelled beyond the path assignment.
-/
def persistLoop (cwd : Str) (req : GenerateRequest) :
    Nat → List (Option GeneratedMediaPartial) → List GeneratedMedia
  | _, [] => []
  | i, none :: rest => persistLoop cwd req (i + 1) rest
  | i, some p :: rest =>
    { toGeneratedMediaPartial := p, filePath := makeOutputPath cwd req i } ::
      persistLoop cwd req (i + 1) rest

/-- The persisted records produced by one `generateMedia` call from the
adapter output `partials`. -/
def persistPartials (cwd : Str) (req : GenerateRequest)
    (partials : List (Option GeneratedMediaPartial)) : List GeneratedMedia :=
  persistLoop cwd req 0 partials

/-- The indices at which the adapter actually decoded an item. -/
def someIndicesFrom : Nat → List (Option GeneratedMediaPartial) → List Nat
  | _, [] => []
  | i, none :: rest => someIndicesFrom (i + 1) rest
  | i, some _ :: rest => i :: someIndicesFrom (i + 1) rest

/-- The per-spec path formula: output directory + name base + shared
timestamp + zero-padded index + extension (index suffix present exactly
when the batch size exceeds 1). -/
def specBuiltPath (req : GenerateRequest) (i : Nat) : Str :=
  pathJoin req.outDir
    (req.nameBase ++ str "-" ++ req.timestamp ++
      (if 1 < req.n then str "-" ++ padIndex (i + 1) else []) ++
      str "." ++ extensionForFormat req.format)

theorem length_persistLoop (cwd : Str) (req : GenerateRequest) :
    ∀ (i : Nat) (ps : List (Option GeneratedMediaPartial)),
      (persistLoop cwd req i ps).length = (ps.filterMap id).length := by
  intro i ps
  induction ps generalizing i with
  | nil => rfl
  | cons hd rest ih =>
    cases hd with
    | none => simpa [persistLoop] using ih (i + 1)
    | some p => simpa [persistLoop] using ih (i + 1)

theorem filePath_persistLoop_out (cwd : Str) (req : GenerateRequest) {o : Str}
    (ho : req.out = some o) (hne : o ≠ []) :
    ∀ (i : Nat) (ps : List (Option GeneratedMediaPartial)),
      ∀ m ∈ persistLoop cwd req i ps, m.filePath = resolvePath cwd o := by
  intro i ps
  induction ps generalizing i with
  | nil => intro m hm; simp [persistLoop] at hm
  | cons hd rest ih =>
    intro m hm
    cases hd with
    | none => exact ih (i + 1) m hm
    | some p =>
      rcases List.mem_cons.mp hm with rfl | hm2
      · show makeOutputPath cwd req i = resolvePath cwd o
        unfold makeOutputPath
        rw [ho]
        simp [List.isEmpty_iff, hne]
      · exact ih (i + 1) m hm2

theorem map_filePath_persistLoop (cwd : Str) (req : GenerateRequest) :
    ∀ (i : Nat) (ps : List (Option GeneratedMediaPartial)),
      (persistLoop cwd req i ps).map (·.filePath)
        = (someIndicesFrom i ps).map (makeOutputPath cwd req) := by
  intro i ps
  induction ps generalizing i with
  | nil => rfl
  | cons hd rest ih =>
    cases hd with
    | none => simpa [persistLoop, someIndicesFrom] using ih (i + 1)
    | some p => simpa [persistLoop, someIndicesFrom] using ih (i + 1)

theorem someIndicesFrom_lt :
    ∀ (i : Nat) (ps : List (Option GeneratedMediaPartial)),
      (someIndicesFrom i ps).Pairwise (· < ·) ∧ ∀ j ∈ someIndicesFrom i ps, i ≤ j := by
  intro i ps
  induction ps generalizing i with
  | nil => exact ⟨List.Pairwise.nil, by simp [someIndicesFrom]⟩
  | cons hd rest ih =>
    cases hd with
    | none =>
      obtain ⟨h1, h2⟩ := ih (i + 1)
      exact ⟨h1, fun j hj => le_trans (by omega) (h2 j hj)⟩
    | some p =>
      obtain ⟨h1, h2⟩ := ih (i + 1)
      refine ⟨List.Pairwise.cons (fun j hj => by have := h2 j hj; omega) h1,
        fun j hj => ?_⟩
      rcases List.mem_cons.mp hj with rfl | hj2
      · exact le_refl _
      · exact le_trans (by omega) (h2 j hj2)

theorem makeOutputPath_no_out (cwd : Str) (req : GenerateRequest)
    (h : req.out = none) (i : Nat) :
    makeOutputPath cwd req i = specBuiltPath req i := by
  unfold makeOutputPath specBuiltPath
  rw [h]

theorem makeOutputPath_injOn (cwd : Str) (req : GenerateRequest)
    (hout : req.out = none) (hn : 1 < req.n) {i j : Nat}
    (h : makeOutputPath cwd req i = makeOutputPath cwd req j) : i = j := by
  rw [makeOutputPath_no_out cwd req hout, makeOutputPath_no_out cwd req hout] at h
  unfold specBuiltPath pathJoin at h
  rw [if_pos hn, if_pos hn] at h
  have h2 : padIndex (i + 1) ++ (str "." ++ extensionForFormat req.format)
      = padIndex (j + 1) ++ (str "." ++ extensionForFormat req.format) := by
    have := h
    simp only [List.append_assoc] at this
    exact List.append_cancel_left (List.append_cancel_left (List.append_cancel_left
      (List.append_cancel_left (List.append_cancel_left (List.append_cancel_left this)))))
  have h3 : padIndex (i + 1) = padIndex (j + 1) := List.append_cancel_right h2
  have := padIndex_injective h3
  omega

/-! ## Claims C1 and C2: the persisted results of one generate call -/

theorem pairwise_of_length_le_one {α : Type} {R : α → α → Prop} {l : List α}
    (h : l.length ≤ 1) : l.Pairwise R := by
  match l with
  | [] => exact List.Pairwise.nil
  | [a] => exact List.pairwise_singleton R a
  | a :: b :: t => simp at h

/-- Concrete request exercising the explicit-out-path branch with batch
size 2 (`--out` set, `n = 2`). -/
def c1CexReq : GenerateRequest :=
  { prompt := str "p", provider := str "xai", model := none, n := 2,
    aspectRatio := none, kind := .image, format := .png,
    outDir := str "/work", out := some (str "/work/o.png"),
    nameBase := str "p", timestamp := str "20260101-000000", verbose := false,
    inputImages := none, startFrame := none, endFrame := none, duration := none }

/-- A decoded adapter item with ordinal `i`. -/
def c1Partial (i : Nat) : GeneratedMediaPartial :=
  { kind := .image, provider := str "xai", model := some (str "m"), index := i,
    url := none, bytes := [0], mimeType := none }

/-- C1 (counterexample): with an explicit out path and batch size 2, both
persisted entries receive the *same* file path (the resolved out path), so
the returned entries do not have pairwise distinct file paths and the
explicit out path is used verbatim even though the batch size is not 1 —
refuting the claim as stated. -/
theorem c1_counterexample :
    ¬ ((persistPartials (str "/cwd") c1CexReq
          [some (c1Partial 0), some (c1Partial 1)]).map (·.filePath)).Pairwise (· ≠ ·) := by
  decide

/-- C1 (amended): for every request and adapter output, `generateMedia`
persists exactly one entry per raw item actually decoded by the adapter,
in adapter order.  When no explicit out path is set, each entry's path is
built from the output directory, name base, shared timestamp, zero-padded
index (suffix present exactly when the batch size `n` exceeds 1) and the
format extension, and the paths are pairwise distinct whenever `n > 1` or
at most one item was decoded.  When an explicit out path is set, it is
used verbatim (resolved against the working directory) for every entry,
regardless of batch size. -/
theorem persistPartials_spec (cwd : Str) (req : GenerateRequest)
    (ps : List (Option GeneratedMediaPartial)) :
    (persistPartials cwd req ps).length = (ps.filterMap id).length
    ∧ (∀ o, req.out = some o → o ≠ [] →
        ∀ m ∈ persistPartials cwd req ps, m.filePath = resolvePath cwd o)
    ∧ (req.out = none →
        (persistPartials cwd req ps).map (·.filePath)
          = (someIndicesFrom 0 ps).map (specBuiltPath req))
    ∧ (req.out = none → (1 < req.n ∨ (ps.filterMap id).length ≤ 1) →
        ((persistPartials cwd req ps).map (·.filePath)).Pairwise (· ≠ ·)) := by
  refine ⟨length_persistLoop cwd req 0 ps, ?_, ?_, ?_⟩
  · intro o ho hne m hm
    exact filePath_persistLoop_out cwd req ho hne 0 ps m hm
  · intro hout
    unfold persistPartials
    rw [map_filePath_persistLoop cwd req 0 ps]
    exact List.map_congr_left fun i _ => makeOutputPath_no_out cwd req hout i
  · intro hout hn
    unfold persistPartials
    rcases hn with hn | hn
    · rw [map_filePath_persistLoop cwd req 0 ps]
      refine List.Pairwise.map _ ?_ (someIndicesFrom_lt 0 ps).1
      intro a b hab heq
      exact absurd (makeOutputPath_injOn cwd req hout hn heq) (Nat.ne_of_lt hab)
    · refine pairwise_of_length_le_one ?_
      rw [List.length_map, length_persistLoop cwd req 0 ps]
      exact hn

/-- Witness for `persistPartials_spec` at a concrete input: batch of
`n = 2` with two decoded items (one gap), no explicit out path. -/
theorem persistPartials_spec_witness :
    (persistPartials (str "/cwd")
        { c1CexReq with out := none }
        [some (c1Partial 0), none, some (c1Partial 2)]).length
      = ([some (c1Partial 0), none, some (c1Partial 2)].filterMap id).length
    ∧ ((persistPartials (str "/cwd") { c1CexReq with out := none }
        [some (c1Partial 0), none, some (c1Partial 2)]).map (·.filePath)).Pairwise (· ≠ ·) :=
  ⟨(persistPartials_spec (str "/cwd") { c1CexReq with out := none } _).1,
   (persistPartials_spec (str "/cwd") { c1CexReq with out := none } _).2.2.2 rfl
     (Or.inl (by decide))⟩

/-- Request for the extension-selection scenario: requested format `png`. -/
def c2Req : GenerateRequest :=
  { prompt := str "a cat", provider := str "xai", model := none, n := 1,
    aspectRatio := none, kind := .image, format := .png,
    outDir := str "/o", out := none,
    nameBase := str "cat", timestamp := str "20260201-120000", verbose := false,
    inputImages := none, startFrame := none, endFrame := none, duration := none }

/-- An adapter item whose declared MIME type is `image/jpeg`, disagreeing
with the requested `png` format. -/
def c2Partial : GeneratedMediaPartial :=
  { kind := .image, provider := str "xai", model := none, index := 0,
    url := none, bytes := [255, 216], mimeType := some (str "image/jpeg") }

/-- C2: the code derives the file extension from the caller-requested
format only.  At the failing input — requested format `png`, adapter MIME
type `image/jpeg` — the item is persisted with a `.png` extension, not
`.jpg`; and in general the persisted paths are a function of the request
and the item positions alone, so the adapter-declared MIME type can never
influence the extension. -/
theorem extension_ignores_mimeType :
    (persistPartials (str "/cwd") c2Req [some c2Partial]).map (·.filePath)
        = [str "/o/cat-20260201-120000.png"]
    ∧ (∀ (cwd : Str) (req : GenerateRequest) (ps : List (Option GeneratedMediaPartial)),
        (persistPartials cwd req ps).map (·.filePath)
          = (someIndicesFrom 0 ps).map (makeOutputPath cwd req)) :=
  ⟨by decide, fun cwd req ps => map_filePath_persistLoop cwd req 0 ps⟩

/-! ## Provider capabilities and the request validator
(src/core/types.ts `ProviderCapabilities`, src/unnamed/part_003
`validateRequestForProvider`) -/

/-- `ProviderCapabilities` from src/core/types.ts.  `maxInputImages` is a
count ("maximum number of input images supported"), modelled as `Nat`;
every provider in the repository declares a non-negative integer for it.
Duration bounds are JS numbers, modelled as `ℚ`. -/
structure ProviderCapabilities where
  maxInputImages : Nat
  supportedAspectRatios : Option (List Str)
  supportsCustomAspectRatio : Option Bool
  supportsVideoInterpolation : Bool
  videoDurationRange : Option (ℚ × ℚ)
  supportsImageEditing : Bool
deriving DecidableEq

/-- JS truthiness of an optional string field. -/
def truthyStr : Option Str → Bool
  | some s => !s.isEmpty
  | none => false

/-- `ar.replace(WS_RUN, '')` with the whitespace class, global: removes
every whitespace character. -/
def removeAllWs (l : Str) : Str := l.filter (fun c => !isWs c)

/-- The anchored ratio shape test: one or more digits, optional
whitespace, a colon, optional whitespace, one or more digits
(`looksLikeRatio` in the validator).  The greedy scan is equivalent to the
regex because the digit, whitespace and colon classes are disjoint. -/
def looksLikeRatio (l : Str) : Bool :=
  let d1 := l.takeWhile isDigit
  match (l.dropWhile isDigit).dropWhile isWs with
  | ':' :: r2 =>
    let r3 := r2.dropWhile isWs
    let d2 := r3.takeWhile isDigit
    !d1.isEmpty && !d2.isEmpty && (r3.dropWhile isDigit).isEmpty
  | _ => false

/-- The machine-distinguishable failure reasons of capability validation
(the source throws `Error`s whose messages distinguish these six cases;
the two aspect-ratio messages both belong to spec rule 2). -/
inductive ValError where
  | inputCount (maxImages provided : Nat)
  | aspectRatioNotSupported (normalized : Str)
  | aspectRatioInvalid (raw : Str)
  | interpolation
  | durationRange (lo hi d : ℚ)
  | imageEditing
deriving DecidableEq

/-- `req.inputImages?.length ?? 0`. -/
def inputImageCount (req : GenerateRequest) : Nat := (req.inputImages.getD []).length

/--
The aspect-ratio block of `validateRequestForProvider`
(src/unnamed/part_003, lines 131-156):

```ts
if (req.aspectRatio) {
  const ar = req.aspectRatio.trim();
  if (caps.supportsCustomAspectRatio === true) return;
  if (Array.isArray(caps.supportedAspectRatios) && caps.supportedAspectRatios.length) {
    const normalized = ar.replace(WS_RUN, '');
    const ok = caps.supportedAspectRatios.includes(normalized);
    if (!ok) throw new Error(...);
    return;
  }
  const looksLikeRatio = RATIO_SHAPE.test(ar);
  if (!looksLikeRatio) throw new Error(...);
}
```
-/
def aspectRatioCheck (req : GenerateRequest) (caps : ProviderCapabilities) :
    Option ValError :=
  match req.aspectRatio with
  | none => none
  | some arRaw =>
    if arRaw.isEmpty then none
    else
      let ar := jsTrim arRaw
      if caps.supportsCustomAspectRatio = some true then none
      else
        match caps.supportedAspectRatios with
        | some allow =>
          if allow.isEmpty then
            if looksLikeRatio ar then none else some (.aspectRatioInvalid arRaw)
          else
            if removeAllWs ar ∈ allow then none
            else some (.aspectRatioNotSupported (removeAllWs ar))
        | none =>
          if looksLikeRatio ar then none else some (.aspectRatioInvalid arRaw)

/-- The three ways the source's aspect-ratio block can end: throw an
error, `return` from the *whole* validator (the early `return`s at
part_003 lines 136 and 148, taken when the ratio is accepted via
`supportsCustomAspectRatio` or via allow-list membership), or fall
through to the remaining checks (no/empty ratio, or the ratio accepted by
the shape test, which has no `return`). -/
inductive AspectOutcome where
  | err (e : ValError)
  | acceptReturn
  | fallThrough
deriving DecidableEq

/-- The full control flow of the aspect-ratio block, early returns
included (`aspectRatioCheck` above is its accept/reject projection; the
relationship is proved in `aspectRatioCheck_eq_block`). -/
def aspectRatioBlock (req : GenerateRequest) (caps : ProviderCapabilities) :
    AspectOutcome :=
  match req.aspectRatio with
  | none => .fallThrough
  | some arRaw =>
    if arRaw.isEmpty then .fallThrough
    else
      let ar := jsTrim arRaw
      if caps.supportsCustomAspectRatio = some true then .acceptReturn
      else
        match caps.supportedAspectRatios with
        | some allow =>
          if allow.isEmpty then
            if looksLikeRatio ar then .fallThrough else .err (.aspectRatioInvalid arRaw)
          else
            if removeAllWs ar ∈ allow then .acceptReturn
            else .err (.aspectRatioNotSupported (removeAllWs ar))
        | none =>
          if looksLikeRatio ar then .fallThrough else .err (.aspectRatioInvalid arRaw)

/--
`validateRequestForProvider` from src/unnamed/part_003 (lines 120-180):
the sequential checks, each throwing on the first violation.  `none` means
the request passed validation.  An aspect ratio accepted via
`supportsCustomAspectRatio` or via allow-list membership makes the source
`return` immediately, so the end-frame, duration and image-editing checks
are skipped in that case.
-/
def validateRequestForProvider (req : GenerateRequest) (caps : ProviderCapabilities) :
    Option ValError :=
  if inputImageCount req > caps.maxInputImages then
    some (.inputCount caps.maxInputImages (inputImageCount req))
  else
    match aspectRatioBlock req caps with
    | .err e => some e
    | .acceptReturn => none
    | .fallThrough =>
      if truthyStr req.endFrame && !caps.supportsVideoInterpolation then
        some .interpolation
      else
        match req.duration, caps.videoDurationRange with
        | some d, some (lo, hi) =>
          if req.kind = .video then
            if d < lo ∨ d > hi then some (.durationRange lo hi d)
            else
              if decide (req.kind = .image) && decide (0 < inputImageCount req)
                  && !caps.supportsImageEditing then some .imageEditing
              else none
          else
            if decide (req.kind = .image) && decide (0 < inputImageCount req)
                && !caps.supportsImageEditing then some .imageEditing
            else none
        | _, _ =>
          if decide (req.kind = .image) && decide (0 < inputImageCount req)
              && !caps.supportsImageEditing then some .imageEditing
          else none

/-! ### Spec-side rule predicates (section 4.2 of the spec), stated
independently of the validator's control flow -/

/-- Spec rule 1: input-image count exceeds `maxInputImages`. -/
def rule1Violated (req : GenerateRequest) (caps : ProviderCapabilities) : Bool :=
  inputImageCount req > caps.maxInputImages

/-- Spec rule 2: an aspect ratio is present and fails the aspect check
(custom ratios accepted unconditionally; with a nonempty allow-list,
whitespace-normalized exact membership; otherwise the ratio shape). -/
def rule2Violated (req : GenerateRequest) (caps : ProviderCapabilities) : Bool :=
  truthyStr req.aspectRatio &&
    !(caps.supportsCustomAspectRatio = some true : Bool) &&
    (match caps.supportedAspectRatios with
     | some allow =>
       if allow.isEmpty then !looksLikeRatio (jsTrim (req.aspectRatio.getD []))
       else !(removeAllWs (jsTrim (req.aspectRatio.getD [])) ∈ allow : Bool)
     | none => !looksLikeRatio (jsTrim (req.aspectRatio.getD [])))

/-- Spec rule 3: end frame present without interpolation support. -/
def rule3Violated (req : GenerateRequest) (caps : ProviderCapabilities) : Bool :=
  truthyStr req.endFrame && !caps.supportsVideoInterpolation

/-- Spec rule 4: duration present, kind video, declared range, and the
duration falls outside the range. -/
def rule4Violated (req : GenerateRequest) (caps : ProviderCapabilities) : Bool :=
  match req.duration, caps.videoDurationRange with
  | some d, some (lo, hi) =>
    decide (req.kind = .video) && (decide (d < lo) || decide (d > hi))
  | _, _ => false

/-- Spec rule 5: image kind with input images but no image-editing
support. -/
def rule5Violated (req : GenerateRequest) (caps : ProviderCapabilities) : Bool :=
  decide (req.kind = .image) && decide (0 < inputImageCount req)
    && !caps.supportsImageEditing

/-- The five spec rules, in the fixed order the spec prescribes. -/
def capabilityRules : List (Nat × (GenerateRequest → ProviderCapabilities → Bool)) :=
  [(1, rule1Violated), (2, rule2Violated), (3, rule3Violated),
   (4, rule4Violated), (5, rule5Violated)]

/-- The spec's contract: the index of the first violated rule in the fixed
order 1..5 (`none` when no rule is violated). -/
def firstViolatedRule (req : GenerateRequest) (caps : ProviderCapabilities) : Option Nat :=
  (capabilityRules.find? (fun rc => rc.2 req caps)).map (·.1)

/-- The rule each validator failure belongs to. -/
def ruleOfError : ValError → Nat
  | .inputCount _ _ => 1
  | .aspectRatioNotSupported _ => 2
  | .aspectRatioInvalid _ => 2
  | .interpolation => 3
  | .durationRange _ _ _ => 4
  | .imageEditing => 5

theorem aspectRatioCheck_ruleOf {req : GenerateRequest} {caps : ProviderCapabilities}
    {e : ValError} (h : aspectRatioCheck req caps = some e) : ruleOfError e = 2 := by
  unfold aspectRatioCheck at h
  cases har : req.aspectRatio with
  | none => rw [har] at h; simp at h
  | some arRaw =>
    rw [har] at h
    by_cases hemp : arRaw.isEmpty
    · simp [hemp] at h
    · by_cases hcust : caps.supportsCustomAspectRatio = some true
      · simp [hemp, hcust] at h
      · cases hal : caps.supportedAspectRatios with
        | none =>
          rw [hal] at h
          by_cases hlr : looksLikeRatio (jsTrim arRaw)
          · simp [hemp, hcust, hlr] at h
          · simp only [hemp, hcust, hlr, Bool.false_eq_true, if_false, if_neg hcust,
              Option.some.injEq] at h
            subst h
            rfl
        | some allow =>
          rw [hal] at h
          by_cases hae : allow.isEmpty
          · by_cases hlr : looksLikeRatio (jsTrim arRaw)
            · simp [hemp, hcust, hae, hlr] at h
            · simp only [hemp, hcust, hae, hlr, Bool.false_eq_true, if_false, if_true,
                if_neg hcust, Option.some.injEq] at h
              subst h
              rfl
          · by_cases hmem : removeAllWs (jsTrim arRaw) ∈ allow
            · simp [hemp, hcust, hae, hmem] at h
            · simp only [hemp, hcust, hae, hmem, Bool.false_eq_true, if_false,
                if_neg hcust, Option.some.injEq] at h
              subst h
              rfl

theorem aspectRatioCheck_none_iff (req : GenerateRequest) (caps : ProviderCapabilities) :
    aspectRatioCheck req caps = none ↔ rule2Violated req caps = false := by
  unfold aspectRatioCheck rule2Violated
  cases har : req.aspectRatio with
  | none => simp [truthyStr]
  | some arRaw =>
    simp only [truthyStr, Option.getD_some]
    by_cases hemp : arRaw.isEmpty
    · simp [hemp]
    · by_cases hcust : caps.supportsCustomAspectRatio = some true
      · simp [hemp, hcust]
      · cases hal : caps.supportedAspectRatios with
        | none =>
          by_cases hlr : looksLikeRatio (jsTrim arRaw)
          · simp [hemp, hcust, hlr]
          · simp [hemp, hcust, hlr]
        | some allow =>
          by_cases hae : allow.isEmpty
          · by_cases hlr : looksLikeRatio (jsTrim arRaw)
            · simp [hemp, hcust, hae, hlr]
            · simp [hemp, hcust, hae, hlr]
          · by_cases hmem : removeAllWs (jsTrim arRaw) ∈ allow
            · simp [hemp, hcust, hae, hmem]
            · simp [hemp, hcust, hae, hmem]

theorem find_rules_eq (req : GenerateRequest) (caps : ProviderCapabilities) :
    firstViolatedRule req caps =
      if rule1Violated req caps then some 1
      else if rule2Violated req caps then some 2
      else if rule3Violated req caps then some 3
      else if rule4Violated req caps then some 4
      else if rule5Violated req caps then some 5
      else none := by
  unfold firstViolatedRule capabilityRules
  by_cases h1 : rule1Violated req caps <;>
    by_cases h2 : rule2Violated req caps <;>
      by_cases h3 : rule3Violated req caps <;>
        by_cases h4 : rule4Violated req caps <;>
          by_cases h5 : rule5Violated req caps <;>
            simp [List.find?, h1, h2, h3, h4, h5]

theorem editingTail_eq (req : GenerateRequest) (caps : ProviderCapabilities) :
    ((if decide (req.kind = .image) && decide (0 < inputImageCount req)
          && !caps.supportsImageEditing then some ValError.imageEditing
      else none).map ruleOfError)
      = if rule5Violated req caps then some 5 else none := by
  by_cases r5 : (decide (req.kind = .image) && decide (0 < inputImageCount req)
      && !caps.supportsImageEditing) = true
  · have h5 : rule5Violated req caps = true := r5
    rw [if_pos r5, if_pos h5]
    rfl
  · have h5 : rule5Violated req caps = false := Bool.eq_false_iff.mpr r5
    rw [if_neg r5, h5]
    rfl

/-- The spec-side predicate for the aspect block's early `return`s: the
request carries a (truthy) aspect ratio that is accepted via
`supportsCustomAspectRatio` or via membership in a nonempty allow-list.
In exactly these cases the source validator returns immediately and the
end-frame / duration / editing checks are skipped. -/
def aspectShortCircuits (req : GenerateRequest) (caps : ProviderCapabilities) : Bool :=
  match req.aspectRatio with
  | none => false
  | some arRaw =>
    !arRaw.isEmpty &&
      (decide (caps.supportsCustomAspectRatio = some true)
        || (match caps.supportedAspectRatios with
            | some allow => !allow.isEmpty && decide (removeAllWs (jsTrim arRaw) ∈ allow)
            | none => false))

/-- `aspectRatioCheck` is the accept/reject projection of the full
three-way `aspectRatioBlock`. -/
theorem aspectRatioCheck_eq_block (req : GenerateRequest) (caps : ProviderCapabilities) :
    aspectRatioCheck req caps
      = match aspectRatioBlock req caps with
        | .err e => some e
        | _ => none := by
  unfold aspectRatioCheck aspectRatioBlock
  cases req.aspectRatio with
  | none => rfl
  | some arRaw =>
    by_cases hemp : arRaw.isEmpty
    · simp [hemp]
    · by_cases hcust : caps.supportsCustomAspectRatio = some true
      · simp [hemp, hcust]
      · cases caps.supportedAspectRatios with
        | none =>
          by_cases hlr : looksLikeRatio (jsTrim arRaw) <;> simp [hemp, hcust, hlr]
        | some allow =>
          by_cases hae : allow.isEmpty
          · by_cases hlr : looksLikeRatio (jsTrim arRaw) <;>
              simp [hemp, hcust, hae, hlr]
          · by_cases hmem : removeAllWs (jsTrim arRaw) ∈ allow <;>
              simp [hemp, hcust, hae, hmem]

/-- The early `return`s fire exactly when `aspectShortCircuits` holds. -/
theorem aspectShortCircuits_iff (req : GenerateRequest) (caps : ProviderCapabilities) :
    aspectShortCircuits req caps = true ↔ aspectRatioBlock req caps = .acceptReturn := by
  unfold aspectShortCircuits aspectRatioBlock
  cases req.aspectRatio with
  | none => simp
  | some arRaw =>
    by_cases hemp : arRaw.isEmpty
    · simp [hemp]
    · by_cases hcust : caps.supportsCustomAspectRatio = some true
      · simp [hemp, hcust]
      · cases caps.supportedAspectRatios with
        | none =>
          by_cases hlr : looksLikeRatio (jsTrim arRaw) <;> simp [hemp, hcust, hlr]
        | some allow =>
          by_cases hae : allow.isEmpty
          · by_cases hlr : looksLikeRatio (jsTrim arRaw) <;>
              simp [hemp, hcust, hae, hlr]
          · by_cases hmem : removeAllWs (jsTrim arRaw) ∈ allow <;>
              simp [hemp, hcust, hae, hmem]

/-! ## Claim C4: aspect-ratio validation -/

/-- Request carrying the aspect ratio `"1 : 2"` (whitespace around the
colon) and nothing else of note. -/
def c4CexReq : GenerateRequest :=
  { prompt := str "p", provider := str "auto", model := none, n := 1,
    aspectRatio := some (str "1 : 2"), kind := .image, format := .png,
    outDir := str "/d", out := none, nameBase := str "p", timestamp := str "t",
    verbose := false, inputImages := none, startFrame := none, endFrame := none,
    duration := none }

/-- Capabilities with neither `supportsCustomAspectRatio` nor an aspect
allow-list, so the shape check decides. -/
def c4CexCaps : ProviderCapabilities :=
  { maxInputImages := 5, supportedAspectRatios := none,
    supportsCustomAspectRatio := none, supportsVideoInterpolation := true,
    videoDurationRange := none, supportsImageEditing := true }

/-- C4 (counterexample): `"1 : 2"` does not have the literal shape
`integer:integer`, yet validation accepts it — the shape test permits
whitespace around the colon, refuting the claim's "anything else is
rejected". -/
theorem c4_counterexample : validateRequestForProvider c4CexReq c4CexCaps = none := by
  decide

/-- C4 (amended): for every request carrying a (truthy) aspect ratio:
if the capabilities declare `supportsCustomAspectRatio` the validator
accepts unconditionally; else if a nonempty allow-list exists, the ratio
is trimmed, all whitespace is removed, and it must be an exact member of
the list (so "4:3" and "4 : 3" pass for ["4:3","16:9"] while "5:7"
fails); else the trimmed ratio must consist of digits, optional
whitespace, a colon, optional whitespace and digits — in particular
whitespace around the colon is accepted in this fallback shape check. -/
theorem aspect_ratio_validation (req : GenerateRequest) (caps : ProviderCapabilities)
    (arRaw : Str) (har : req.aspectRatio = some arRaw) (hne : arRaw ≠ []) :
    (caps.supportsCustomAspectRatio = some true → aspectRatioCheck req caps = none)
    ∧ (∀ allow, caps.supportsCustomAspectRatio ≠ some true →
        caps.supportedAspectRatios = some allow → allow ≠ [] →
        (aspectRatioCheck req caps = none ↔ removeAllWs (jsTrim arRaw) ∈ allow))
    ∧ (caps.supportsCustomAspectRatio ≠ some true →
        (caps.supportedAspectRatios = none ∨ caps.supportedAspectRatios = some []) →
        (aspectRatioCheck req caps = none ↔ looksLikeRatio (jsTrim arRaw) = true))
    ∧ removeAllWs (jsTrim (str "4:3")) ∈ [str "4:3", str "16:9"]
    ∧ removeAllWs (jsTrim (str "4 : 3")) ∈ [str "4:3", str "16:9"]
    ∧ removeAllWs (jsTrim (str "5:7")) ∉ [str "4:3", str "16:9"] := by
  have hempty : arRaw.isEmpty = false := by
    cases arRaw with
    | nil => exact absurd rfl hne
    | cons c t => rfl
  refine ⟨?_, ?_, ?_, by decide, by decide, by decide⟩
  · intro hcust
    unfold aspectRatioCheck
    rw [har]
    simp [hempty, hcust]
  · intro allow hcust hal hallow
    unfold aspectRatioCheck
    rw [har, hal]
    have hae : allow.isEmpty = false := by
      cases allow with
      | nil => exact absurd rfl hallow
      | cons a t => rfl
    by_cases hmem : removeAllWs (jsTrim arRaw) ∈ allow
    · simp [hempty, hcust, hae, hmem]
    · simp [hempty, hcust, hae, hmem]
  · intro hcust hal
    unfold aspectRatioCheck
    rw [har]
    rcases hal with hal | hal <;> rw [hal] <;>
      by_cases hlr : looksLikeRatio (jsTrim arRaw) <;>
        simp [hempty, hcust, hlr]

/-- Witness for `aspect_ratio_validation`: the whitespace-normalized
ratio "4 : 3" is accepted against the allow-list ["4:3","16:9"]. -/
theorem aspect_ratio_validation_witness :
    aspectRatioCheck
      { c4CexReq with aspectRatio := some (str "4 : 3") }
      { c4CexCaps with supportedAspectRatios := some [str "4:3", str "16:9"] } = none :=
  ((aspect_ratio_validation
      { c4CexReq with aspectRatio := some (str "4 : 3") }
      { c4CexCaps with supportedAspectRatios := some [str "4:3", str "16:9"] }
      (str "4 : 3") rfl (by decide)).2.1
    [str "4:3", str "16:9"] (by decide) rfl (by decide)).mpr (by decide)

/-! ## Claim C10: prompt-only requests always pass validation -/

/-- C10: for every capabilities value, a request supplying no input
images, no aspect ratio, no end frame and no duration passes capability
validation — a plain prompt-only request can never fail it, whatever
provider is selected. -/
theorem prompt_only_always_validates (req : GenerateRequest)
    (caps : ProviderCapabilities)
    (h1 : req.inputImages = none ∨ req.inputImages = some [])
    (h2 : req.aspectRatio = none) (h3 : req.endFrame = none)
    (h4 : req.duration = none) :
    validateRequestForProvider req caps = none := by
  have hcount : inputImageCount req = 0 := by
    rcases h1 with h | h <;> simp [inputImageCount, h]
  have hac : aspectRatioBlock req caps = .fallThrough := by
    unfold aspectRatioBlock
    rw [h2]
  unfold validateRequestForProvider
  rw [if_neg (by simp [hcount]), hac, h4]
  have htf : truthyStr req.endFrame = false := by rw [h3]; rfl
  rw [htf]
  dsimp only
  cases hr : caps.videoDurationRange <;>
    simp [hcount]

/-- Witness for `prompt_only_always_validates` on a concrete prompt-only
request against concrete capabilities. -/
theorem prompt_only_always_validates_witness :
    validateRequestForProvider
      { c4CexReq with aspectRatio := none }
      { c4CexCaps with
          maxInputImages := 0
          supportsImageEditing := false
          supportsVideoInterpolation := false } = none :=
  prompt_only_always_validates _ _ (Or.inl rfl) rfl rfl rfl

/-! ## Claim C5: batch-count normalization
(src/unnamed/part_003, `normalizeOptions` lines 63-64) -/

/--
```ts
const nRaw = opts.n ?? 1;
const n = Math.max(1, Math.min(10, Math.floor(nRaw)));
```
The caller-supplied `opts.n` is a JS number (possibly fractional),
modelled as `ℚ`; `Math.floor` lands in `ℤ`.
-/
def normalizeCount (nOpt : Option ℚ) : ℤ :=
  max 1 (min 10 ⌊nOpt.getD 1⌋)

/-- The spec's `clamp(x, lo, hi)`. -/
def specClamp (x lo hi : ℤ) : ℤ := min hi (max lo x)

/-- C5: normalization computes the batch count as
`clamp(floor(n ?? 1), 1, 10)`: an absent `n` yields 1, and any supplied
numeric `n` is floored and clamped, so the normalized count is always an
integer (the codomain is `ℤ`) in `[1, 10]`. -/
theorem normalize_count_spec :
    normalizeCount none = 1
    ∧ (∀ nOpt : Option ℚ, normalizeCount nOpt = specClamp ⌊nOpt.getD 1⌋ 1 10)
    ∧ (∀ nOpt : Option ℚ, 1 ≤ normalizeCount nOpt ∧ normalizeCount nOpt ≤ 10) := by
  refine ⟨by norm_num [normalizeCount], fun nOpt => ?_, fun nOpt => ?_⟩
  · unfold normalizeCount specClamp
    omega
  · unfold normalizeCount
    omega

/-! ## Claim C7: provider registry and selection
(src/unnamed/part_003 `providers` / `pickProvider`; availability checks
from src/providers/<vendor>.ts) -/

/-- The process environment: variable name to value. -/
def Env := Str → Option Str

/-- JS truthiness of an environment value (`''` is falsy). -/
def truthyEnv : Option Str → Bool
  | some s => !s.isEmpty
  | none => false

/-- JS `a || b` on optional strings: the first truthy operand. -/
def jsOr (a b : Option Str) : Option Str := if truthyEnv a then a else b

/-- `env.GEMINI_API_KEY || env.GOOGLE_API_KEY || env.GOOGLE_GENAI_API_KEY`
(src/providers/google.ts `getGeminiApiKey`). -/
def getGeminiApiKey (env : Env) : Option Str :=
  jsOr (env (str "GEMINI_API_KEY"))
    (jsOr (env (str "GOOGLE_API_KEY")) (env (str "GOOGLE_GENAI_API_KEY")))

/-- `env.XAI_API_KEY || env.XAI_TOKEN || env.GROK_API_KEY`
(src/providers/xai.ts `getXaiApiKey`). -/
def getXaiApiKey (env : Env) : Option Str :=
  jsOr (env (str "XAI_API_KEY"))
    (jsOr (env (str "XAI_TOKEN")) (env (str "GROK_API_KEY")))

/-- `env.FAL_API_KEY || env.FAL_KEY` (src/providers/fal.ts `getFalKey`). -/
def getFalKey (env : Env) : Option Str :=
  jsOr (env (str "FAL_API_KEY")) (env (str "FAL_KEY"))

/-- `env.OPENAI_API_KEY || env.OPENAI_KEY`
(src/providers/openai.ts `getOpenAIApiKey`). -/
def getOpenAIApiKey (env : Env) : Option Str :=
  jsOr (env (str "OPENAI_API_KEY")) (env (str "OPENAI_KEY"))

def googleIsAvailable (env : Env) : Bool := truthyEnv (getGeminiApiKey env)
def xaiIsAvailable (env : Env) : Bool := truthyEnv (getXaiApiKey env)
def falIsAvailable (env : Env) : Bool := truthyEnv (getFalKey env)
def openaiIsAvailable (env : Env) : Bool := truthyEnv (getOpenAIApiKey env)

/-- `Provider` from src/core/types.ts (the `generate` method is the
effectful adapter entry point and is modelled separately per claim). -/
structure Provider where
  id : Str
  displayName : Str
  supports : List MediaKind
  capabilities : ProviderCapabilities
  isAvailable : Env → Bool

/-- `googleCapabilities` (src/unnamed/part_006). -/
def googleCapabilities : ProviderCapabilities :=
  { maxInputImages := 3,
    supportedAspectRatios :=
      some [str "1:1", str "4:3", str "3:4", str "16:9", str "9:16"],
    supportsCustomAspectRatio := none,
    supportsVideoInterpolation := true,
    videoDurationRange := some (4, 8),
    supportsImageEditing := true }

/-- `xaiCapabilities` (src/providers/xai.ts). -/
def xaiCapabilities : ProviderCapabilities :=
  { maxInputImages := 10,
    supportedAspectRatios := none,
    supportsCustomAspectRatio := some true,
    supportsVideoInterpolation := false,
    videoDurationRange := some (1, 15),
    supportsImageEditing := true }

/-- `falCapabilities` (src/unnamed/part_005). -/
def falCapabilities : ProviderCapabilities :=
  { maxInputImages := 7,
    supportedAspectRatios := none,
    supportsCustomAspectRatio := none,
    supportsVideoInterpolation := true,
    videoDurationRange := some (2, 15),
    supportsImageEditing := true }

/-- `openaiCapabilities` (src/providers/openai.ts). -/
def openaiCapabilities : ProviderCapabilities :=
  { maxInputImages := 2,
    supportedAspectRatios := none,
    supportsCustomAspectRatio := none,
    supportsVideoInterpolation := false,
    videoDurationRange := none,
    supportsImageEditing := true }

def googleProvider : Provider :=
  { id := str "google", displayName := str "Google (Gemini / Imagen / Veo)",
    supports := [.image, .video], capabilities := googleCapabilities,
    isAvailable := googleIsAvailable }

def xaiProvider : Provider :=
  { id := str "xai", displayName := str "xAI",
    supports := [.image, .video], capabilities := xaiCapabilities,
    isAvailable := xaiIsAvailable }

def falProvider : Provider :=
  { id := str "fal", displayName := str "fal.ai",
    supports := [.image, .video], capabilities := falCapabilities,
    isAvailable := falIsAvailable }

def openaiProvider : Provider :=
  { id := str "openai", displayName := str "OpenAI (GPT Image / DALL-E)",
    supports := [.image], capabilities := openaiCapabilities,
    isAvailable := openaiIsAvailable }

/-- The registry, in its fixed order (src/unnamed/part_003 line 28):
`[googleProvider, xaiProvider, falProvider, openaiProvider]`. -/
def providers : List Provider :=
  [googleProvider, xaiProvider, falProvider, openaiProvider]

inductive PickError where
  | unknownProvider (id : Str)
  | providerUnavailable (id : Str)
  | noProviderAvailable
deriving DecidableEq

/--
`pickProvider` from src/unnamed/part_003 (lines 38-52).  The selector is a
raw string at runtime (the CLI casts `--provider` unchecked):

```ts
export function pickProvider(id: ProviderId, env: ProviderEnv): Provider {
  if (id !== 'auto') {
    const p = providers.find((p) => p.id === id);
    if (!p) throw new Error(`Unknown provider`);
    if (!p.isAvailable(env)) throw new Error(`not available (missing API key)`);
    return p;
  }
  const p = providers.find((pp) => pp.isAvailable(env));
  if (!p) throw new Error('No providers available. ...');
  return p;
}
```
-/
def pickProvider (id : Str) (env : Env) : Except PickError Provider :=
  if id ≠ str "auto" then
    match providers.find? (fun p => p.id = id) with
    | none => .error (.unknownProvider id)
    | some p =>
      if !p.isAvailable env then .error (.providerUnavailable id) else .ok p
  else
    match providers.find? (fun pp => pp.isAvailable env) with
    | none => .error .noProviderAvailable
    | some p => .ok p

/-- C7: provider selection.  The auto selector returns the first provider
of the fixed registry order `[google, xai, fal, openai]` whose
availability check passes (the registry order *is* the priority order;
there is no other registration mechanism in memory), and fails with
`NoProviderAvailable` when none passes.  An explicit selector fails with
`UnknownProvider` when the id is not registered, and with
`ProviderUnavailable` when the provider's availability check fails. -/
theorem provider_selection_spec (env : Env) :
    (pickProvider (str "auto") env =
      if googleIsAvailable env then .ok googleProvider
      else if xaiIsAvailable env then .ok xaiProvider
      else if falIsAvailable env then .ok falProvider
      else if openaiIsAvailable env then .ok openaiProvider
      else .error .noProviderAvailable)
    ∧ (∀ id : Str, id ≠ str "auto" → id ∉ providers.map (·.id) →
        pickProvider id env = .error (.unknownProvider id))
    ∧ (pickProvider (str "google") env =
        if googleIsAvailable env then .ok googleProvider
        else .error (.providerUnavailable (str "google")))
    ∧ (pickProvider (str "xai") env =
        if xaiIsAvailable env then .ok xaiProvider
        else .error (.providerUnavailable (str "xai")))
    ∧ (pickProvider (str "fal") env =
        if falIsAvailable env then .ok falProvider
        else .error (.providerUnavailable (str "fal")))
    ∧ (pickProvider (str "openai") env =
        if openaiIsAvailable env then .ok openaiProvider
        else .error (.providerUnavailable (str "openai"))) := by
  refine ⟨?_, ?_, ?_, ?_, ?_, ?_⟩
  · unfold pickProvider
    rw [if_neg (by simp)]
    by_cases hg : googleIsAvailable env <;>
      by_cases hx : xaiIsAvailable env <;>
        by_cases hf : falIsAvailable env <;>
          by_cases ho : openaiIsAvailable env <;>
            simp [providers, List.find?, googleProvider, xaiProvider, falProvider,
              openaiProvider, hg, hx, hf, ho]
  · intro id hauto hid
    unfold pickProvider
    rw [if_pos hauto]
    have hfind : providers.find? (fun p => p.id = id) = none := by
      rw [List.find?_eq_none]
      intro x hx hpx
      simp only [decide_eq_true_eq] at hpx
      subst hpx
      exact hid (List.mem_map_of_mem (·.id) hx)
    rw [hfind]
  · have hfind : providers.find? (fun p => p.id = str "google") = some googleProvider := rfl
    unfold pickProvider
    rw [if_pos (by decide), hfind]
    by_cases hg : googleIsAvailable env <;> simp [googleProvider, hg]
  · have hfind : providers.find? (fun p => p.id = str "xai") = some xaiProvider := rfl
    unfold pickProvider
    rw [if_pos (by decide), hfind]
    by_cases hx : xaiIsAvailable env <;> simp [xaiProvider, hx]
  · have hfind : providers.find? (fun p => p.id = str "fal") = some falProvider := rfl
    unfold pickProvider
    rw [if_pos (by decide), hfind]
    by_cases hf : falIsAvailable env <;> simp [falProvider, hf]
  · have hfind : providers.find? (fun p => p.id = str "openai") = some openaiProvider := rfl
    unfold pickProvider
    rw [if_pos (by decide), hfind]
    by_cases ho : openaiIsAvailable env <;> simp [openaiProvider, ho]

/-- An environment with only `FAL_KEY` set. -/
def falOnlyEnv : Env := fun v => if v = str "FAL_KEY" then some (str "k") else none

/-- Witness for `provider_selection_spec`: with only `FAL_KEY` set, auto
selection skips google and xai and picks fal; an unregistered id fails as
unknown; xai fails as unavailable. -/
theorem provider_selection_spec_witness :
    pickProvider (str "auto") falOnlyEnv = .ok falProvider
    ∧ pickProvider (str "vercel") falOnlyEnv = .error (.unknownProvider (str "vercel"))
    ∧ pickProvider (str "xai") falOnlyEnv = .error (.providerUnavailable (str "xai")) := by
  obtain ⟨h1, h2, _, h4, _, _⟩ := provider_selection_spec falOnlyEnv
  refine ⟨?_, ?_, ?_⟩
  · rw [h1, show googleIsAvailable falOnlyEnv = false from rfl,
      show xaiIsAvailable falOnlyEnv = false from rfl,
      show falIsAvailable falOnlyEnv = true from rfl]
    simp
  · exact h2 _ (by decide) (by decide)
  · rw [h4, show xaiIsAvailable falOnlyEnv = false from rfl]
    simp

/-! ## Claim C6: bounded polling in the xAI video adapter
(src/providers/xai.ts `generateXaiVideo`, lines 274-319) -/

/-- The parsed JSON of one poll of `GET /v1/videos/{request_id}`
(`XaiVideoResultResponse`): the `video` object sits at the top level when
complete; `videoUrl`/`respectModeration` model `video?.url` /
`video?.respect_moderation`. -/
structure XaiVideoPollJson where
  status : Option Str
  videoUrl : Option Str
  respectModeration : Option Bool
  model : Option Str

/-- `const maxAttempts = 120; // ~6 minutes at 3s interval` -/
def xaiMaxPollAttempts : Nat := 120

/-- `const intervalMs = 3000;` -/
def xaiPollIntervalMs : Nat := 3000

/--
The poll loop of `generateXaiVideo`.  `poll attempt` is the parsed JSON of
the (attempt+1)-th GET (the stub scenario assumes every poll responds with
HTTP success; a non-success poll response throws before parsing and is not
part of the claim).  Returns the number of polls performed, and either the
mid-loop generation-failure JSON or the loop's final `result`:

```ts
let result: XaiVideoResultResponse | undefined;
for (let attempt = 0; attempt < maxAttempts; attempt++) {
  const json = await (...);         // one poll
  result = json;
  if (json.video?.url) break;
  if (json.status === 'failed' || json.status === 'error') throw ...;
  await sleep(intervalMs);
}
```
-/
def xaiPollLoop (poll : Nat → XaiVideoPollJson) :
    Nat → Nat → Option XaiVideoPollJson →
      Nat × (XaiVideoPollJson ⊕ Option XaiVideoPollJson)
  | attempt, 0, result => (attempt, Sum.inr result)
  | attempt, remaining + 1, _ =>
    let json := poll attempt
    if truthyStr json.videoUrl then (attempt + 1, Sum.inr (some json))
    else if json.status = some (str "failed") ∨ json.status = some (str "error") then
      (attempt + 1, Sum.inl json)
    else xaiPollLoop poll (attempt + 1) remaining (some json)

/--
The tail of `generateXaiVideo` after the poll loop, producing the call's
outcome (download and byte handling elided; what matters is which error or
success is reached).  Paired with the number of polls performed:

```ts
if (!result?.video?.url) {
  throw new Error(`xAI video generation timed out (request_id=${requestId})`);
}
if (result.video?.respect_moderation === false) throw ...('blocked by moderation');
// download result.video.url ...
```
-/
def generateXaiVideoPoll (requestId : Str) (poll : Nat → XaiVideoPollJson) :
    Nat × Except Str (Str × Option Str) :=
  match xaiPollLoop poll 0 xaiMaxPollAttempts none with
  | (cnt, Sum.inl _json) => (cnt, .error (str "xAI video generation failed"))
  | (cnt, Sum.inr result) =>
    match result with
    | some json =>
      if truthyStr json.videoUrl then
        if json.respectModeration = some false then
          (cnt, .error (str "xAI video generation was blocked by moderation"))
        else (cnt, .ok (json.videoUrl.getD [], json.model))
      else
        (cnt, .error (str "xAI video generation timed out (request_id="
          ++ requestId ++ str ")"))
    | none =>
      (cnt, .error (str "xAI video generation timed out (request_id="
        ++ requestId ++ str ")"))

theorem xaiPollLoop_never_done (poll : Nat → XaiVideoPollJson) :
    ∀ (remaining attempt : Nat) (last : Option XaiVideoPollJson),
      (∀ i, attempt ≤ i → i < attempt + remaining →
        (poll i).videoUrl = none
          ∧ (poll i).status ≠ some (str "failed")
          ∧ (poll i).status ≠ some (str "error")) →
      xaiPollLoop poll attempt remaining last
        = (attempt + remaining,
           Sum.inr (if remaining = 0 then last else some (poll (attempt + remaining - 1)))) := by
  intro remaining
  induction remaining with
  | zero => intro attempt last _; simp [xaiPollLoop]
  | succ r ih =>
    intro attempt last h
    obtain ⟨hurl, hf, he⟩ := h attempt (le_refl _) (by omega)
    rw [show xaiPollLoop poll attempt (r + 1) last
        = if truthyStr (poll attempt).videoUrl then (attempt + 1, Sum.inr (some (poll attempt)))
          else if (poll attempt).status = some (str "failed")
              ∨ (poll attempt).status = some (str "error") then
            (attempt + 1, Sum.inl (poll attempt))
          else xaiPollLoop poll (attempt + 1) r (some (poll attempt)) from rfl]
    rw [if_neg (by rw [hurl]; simp [truthyStr]), if_neg (not_or.mpr ⟨hf, he⟩)]
    rw [ih (attempt + 1) (some (poll attempt)) (fun i h1 h2 => h i (by omega) (by omega))]
    cases r with
    | zero => simp
    | succ r' =>
      have hne : ¬ (r' + 1 = 0) := by omega
      rw [if_neg hne, if_neg (by omega : ¬ (r' + 1 + 1 = 0))]
      have : attempt + 1 + (r' + 1) - 1 = attempt + (r' + 1 + 1) - 1 := by omega
      rw [this, show attempt + 1 + (r' + 1) = attempt + (r' + 1 + 1) from by omega]

/-- C6: a Shape-B (async polling) xAI video generation whose job never
reaches a done state fails with the timeout error after exactly the
bounded maximum number of poll attempts — 120 polls at the declared
3000 ms interval — not earlier and not later, and the timeout message
reports the job identifier. -/
theorem xai_poll_timeout (requestId : Str) (poll : Nat → XaiVideoPollJson)
    (h : ∀ i, i < xaiMaxPollAttempts →
      (poll i).videoUrl = none
        ∧ (poll i).status ≠ some (str "failed")
        ∧ (poll i).status ≠ some (str "error")) :
    generateXaiVideoPoll requestId poll
      = (120, .error (str "xAI video generation timed out (request_id="
          ++ requestId ++ str ")"))
    ∧ xaiMaxPollAttempts = 120 ∧ xaiPollIntervalMs = 3000 := by
  refine ⟨?_, rfl, rfl⟩
  unfold generateXaiVideoPoll
  rw [xaiPollLoop_never_done poll xaiMaxPollAttempts 0 none
    (fun i h1 h2 => h i (by omega))]
  have hurl : (poll (0 + xaiMaxPollAttempts - 1)).videoUrl = none :=
    (h (0 + xaiMaxPollAttempts - 1) (by decide)).1
  rw [if_neg (by decide : ¬ (xaiMaxPollAttempts = 0))]
  dsimp only
  rw [show truthyStr (poll (0 + xaiMaxPollAttempts - 1)).videoUrl = false from by
    rw [hurl]; rfl]
  rfl

/-- A stub poll endpoint that is forever pending. -/
def foreverPending : Nat → XaiVideoPollJson :=
  fun _ => { status := some (str "pending"), videoUrl := none,
             respectModeration := none, model := none }

/-- Witness for `xai_poll_timeout`: the forever-pending stub times out
after exactly 120 polls with the request id in the message. -/
theorem xai_poll_timeout_witness :
    generateXaiVideoPoll (str "req-42") foreverPending
      = (120, .error (str "xAI video generation timed out (request_id="
          ++ str "req-42" ++ str ")")) :=
  (xai_poll_timeout (str "req-42") foreverPending
    (fun _ _ => ⟨rfl, by simp [foreverPending]; decide, by simp [foreverPending]; decide⟩)).1

/-! ## Claim C8: image-input resolution and the base64 round trip
(src/core/output.ts `resolveImageInput`, lines 104-133) -/

/-- The standard base64 alphabet used by `Buffer.toString('base64')`. -/
def b64Alphabet : Str :=
  str "ABCDEFGHIJKLMNOPQRSTUVWXYZabcdefghijklmnopqrstuvwxyz0123456789+/"

def b64Char (n : Nat) : Char := b64Alphabet.getD n '?'

def b64Val (c : Char) : Nat := b64Alphabet.findIdx (· == c)

/-- RFC 4648 base64 of a byte sequence, as Node's
`Buffer.prototype.toString('base64')` produces it (with `=` padding, no
line breaks). -/
def b64encode : List Nat → Str
  | a :: b :: c :: rest =>
    b64Char (a / 4) :: b64Char (a % 4 * 16 + b / 16)
      :: b64Char (b % 16 * 4 + c / 64) :: b64Char (c % 64) :: b64encode rest
  | [a, b] => [b64Char (a / 4), b64Char (a % 4 * 16 + b / 16), b64Char (b % 16 * 4), '=']
  | [a] => [b64Char (a / 4), b64Char (a % 4 * 16), '=', '=']
  | [] => []

/-- Base64 decoding (the left inverse establishing the round trip). -/
def b64decode : Str → List Nat
  | c1 :: c2 :: c3 :: c4 :: rest =>
    if c3 = '=' then [b64Val c1 * 4 + b64Val c2 / 16]
    else if c4 = '=' then
      [b64Val c1 * 4 + b64Val c2 / 16, b64Val c2 % 16 * 16 + b64Val c3 / 4]
    else
      (b64Val c1 * 4 + b64Val c2 / 16)
        :: (b64Val c2 % 16 * 16 + b64Val c3 / 4)
        :: (b64Val c3 % 4 * 64 + b64Val c4)
        :: b64decode rest
  | _ => []

theorem b64Val_b64Char : ∀ n, n < 64 → b64Val (b64Char n) = n := by decide

theorem b64Char_ne_pad : ∀ n, n < 64 → b64Char n ≠ '=' := by decide

/-- The base64 round trip: decoding the encoding of any byte sequence
recovers the bytes. -/
theorem b64_roundtrip : ∀ (bytes : List Nat), (∀ b ∈ bytes, b < 256) →
    b64decode (b64encode bytes) = bytes
  | [], _ => rfl
  | [a], h => by
    have ha : a < 256 := h a (by simp)
    rw [show b64encode [a] = [b64Char (a / 4), b64Char (a % 4 * 16), '=', '='] from rfl]
    rw [show b64decode [b64Char (a / 4), b64Char (a % 4 * 16), '=', '=']
        = [b64Val (b64Char (a / 4)) * 4 + b64Val (b64Char (a % 4 * 16)) / 16] from by
      simp [b64decode]]
    rw [b64Val_b64Char _ (by omega), b64Val_b64Char _ (by omega)]
    simp only [List.cons.injEq, and_true]
    omega
  | [a, b], h => by
    have ha : a < 256 := h a (by simp)
    have hb : b < 256 := h b (by simp)
    rw [show b64encode [a, b]
        = [b64Char (a / 4), b64Char (a % 4 * 16 + b / 16), b64Char (b % 16 * 4), '='] from rfl]
    rw [show b64decode
          [b64Char (a / 4), b64Char (a % 4 * 16 + b / 16), b64Char (b % 16 * 4), '=']
        = [b64Val (b64Char (a / 4)) * 4 + b64Val (b64Char (a % 4 * 16 + b / 16)) / 16,
           b64Val (b64Char (a % 4 * 16 + b / 16)) % 16 * 16
             + b64Val (b64Char (b % 16 * 4)) / 4] from by
      simp [b64decode, b64Char_ne_pad (b % 16 * 4) (by omega)]]
    rw [b64Val_b64Char _ (by omega), b64Val_b64Char _ (by omega),
      b64Val_b64Char _ (by omega)]
    simp only [List.cons.injEq, and_true]
    constructor <;> omega
  | a :: b :: c :: rest, h => by
    have ha : a < 256 := h a (by simp)
    have hb : b < 256 := h b (by simp)
    have hc : c < 256 := h c (by simp)
    have ih := b64_roundtrip rest (fun x hx => h x (by simp [hx]))
    rw [show b64encode (a :: b :: c :: rest)
        = b64Char (a / 4) :: b64Char (a % 4 * 16 + b / 16)
            :: b64Char (b % 16 * 4 + c / 64) :: b64Char (c % 64)
            :: b64encode rest from ?_]
    rw [show b64decode (b64Char (a / 4) :: b64Char (a % 4 * 16 + b / 16)
            :: b64Char (b % 16 * 4 + c / 64) :: b64Char (c % 64)
            :: b64encode rest)
        = (b64Val (b64Char (a / 4)) * 4 + b64Val (b64Char (a % 4 * 16 + b / 16)) / 16)
            :: (b64Val (b64Char (a % 4 * 16 + b / 16)) % 16 * 16
                + b64Val (b64Char (b % 16 * 4 + c / 64)) / 4)
            :: (b64Val (b64Char (b % 16 * 4 + c / 64)) % 4 * 64
                + b64Val (b64Char (c % 64)))
            :: b64decode (b64encode rest) from ?_]
    · rw [b64Val_b64Char _ (by omega), b64Val_b64Char _ (by omega),
        b64Val_b64Char _ (by omega), b64Val_b64Char _ (by omega), ih]
      simp only [List.cons.injEq]
      exact ⟨by omega, by omega, by omega, trivial⟩
    · simp [b64decode, b64Char_ne_pad (b % 16 * 4 + c / 64) (by omega),
        b64Char_ne_pad (c % 64) (by omega)]
    · cases rest with
      | nil => rfl
      | cons d t =>
        cases t with
        | nil => rfl
        | cons e t2 => rfl

/-- `IMAGE_MIME_TYPES` from src/core/output.ts: file extension to MIME
type for the supported image formats. -/
def IMAGE_MIME_TYPES : List (Str × Str) :=
  [(str ".png", str "image/png"), (str ".jpg", str "image/jpeg"),
   (str ".jpeg", str "image/jpeg"), (str ".webp", str "image/webp"),
   (str ".gif", str "image/gif"), (str ".avif", str "image/avif"),
   (str ".heif", str "image/heif"), (str ".heic", str "image/heic")]

/-- `IMAGE_MIME_TYPES[ext]`. -/
def lookupMime (ext : Str) : Option Str :=
  (IMAGE_MIME_TYPES.find? (fun kv => kv.1 = ext)).map (·.2)

/-- The basename: everything after the last `/`. -/
def afterLastSlash (p : Str) : Str := (p.reverse.takeWhile (· ≠ '/')).reverse

/-- `path.extname`: the substring of the basename from its last `.`
(empty for dotfiles and extension-less names). -/
def extname (p : Str) : Str :=
  let b := afterLastSlash p
  if (b.drop 1).contains '.' then '.' :: (b.reverse.takeWhile (· ≠ '.')).reverse
  else []

/--
`resolveImageInput` from src/core/output.ts.  The file system is passed
explicitly (`fs path = none` models a read failure):

```ts
export async function resolveImageInput(pathOrUrl: string): Promise<string> {
  if (pathOrUrl.startsWith('http:' + '//') || pathOrUrl.startsWith('https:' + '//'))
    return pathOrUrl;
  if (pathOrUrl.startsWith('data:')) return pathOrUrl;
  const resolvedPath = path.isAbsolute(pathOrUrl)
    ? pathOrUrl : path.resolve(process.cwd(), pathOrUrl);
  const ext = path.extname(resolvedPath).toLowerCase();
  const mimeType = IMAGE_MIME_TYPES[ext];
  if (!mimeType) throw new Error(`Unsupported image format: ...`);
  const fileBuffer = await fs.readFile(resolvedPath);
  const base64 = fileBuffer.toString('base64');
  return `data:${mimeType};base64,${base64}`;
}
```
-/
def resolveImageInput (cwd : Str) (fs : Str → Option (List Nat)) (pathOrUrl : Str) :
    Except Str Str :=
  if (str "http://").isPrefixOf pathOrUrl || (str "https://").isPrefixOf pathOrUrl then
    .ok pathOrUrl
  else if (str "data:").isPrefixOf pathOrUrl then
    .ok pathOrUrl
  else
    match lookupMime ((extname (resolvePath cwd pathOrUrl)).map toLowerJS) with
    | none => .error (str "Unsupported image format")
    | some mimeType =>
      match fs (resolvePath cwd pathOrUrl) with
      | none => .error (str "IOError")
      | some fileBuffer =>
        .ok (str "data:" ++ mimeType ++ str ";base64," ++ b64encode fileBuffer)

theorem data_uri_not_http {u : Str} (h : (str "data:").isPrefixOf u = true) :
    ((str "http://").isPrefixOf u || (str "https://").isPrefixOf u) = false := by
  rw [List.isPrefixOf_iff_prefix] at h
  obtain ⟨t, rfl⟩ := h
  rfl

/-- C8: image-input resolution.  http(s) URLs and data URIs are returned
verbatim; resolving a local path whose (lowercased) extension is `.png`
and whose bytes can be read yields exactly
`data:image/png;base64,<base64 of the bytes>`, and base64-decoding that
payload recovers exactly the original file bytes. -/
theorem resolve_image_input_spec (cwd : Str) (fs : Str → Option (List Nat)) :
    (∀ u : Str,
      ((str "http://").isPrefixOf u || (str "https://").isPrefixOf u) = true →
      resolveImageInput cwd fs u = .ok u)
    ∧ (∀ u : Str, (str "data:").isPrefixOf u = true →
      resolveImageInput cwd fs u = .ok u)
    ∧ (∀ (p : Str) (bytes : List Nat),
        ((str "http://").isPrefixOf p || (str "https://").isPrefixOf p) = false →
        (str "data:").isPrefixOf p = false →
        (extname (resolvePath cwd p)).map toLowerJS = str ".png" →
        fs (resolvePath cwd p) = some bytes →
        (∀ b ∈ bytes, b < 256) →
        resolveImageInput cwd fs p
            = .ok (str "data:image/png;base64," ++ b64encode bytes)
          ∧ b64decode (b64encode bytes) = bytes) := by
  refine ⟨?_, ?_, ?_⟩
  · intro u hu
    unfold resolveImageInput
    rw [if_pos hu]
  · intro u hu
    unfold resolveImageInput
    rw [if_neg (by rw [data_uri_not_http hu]; simp), if_pos hu]
  · intro p bytes hh hd hext hfs hb
    refine ⟨?_, b64_roundtrip bytes hb⟩
    unfold resolveImageInput
    rw [if_neg (by rw [hh]; simp), if_neg (by rw [hd]; simp), hext]
    rw [show lookupMime (str ".png") = some (str "image/png") from rfl]
    rw [hfs]
    rfl

/-- The concrete file system for the witness: one PNG file under /cwd. -/
def pngFs : Str → Option (List Nat) :=
  fun p => if p = str "/cwd/a.png" then some [137, 80, 78, 71] else none

/-- Witness for `resolve_image_input_spec`: URLs and data URIs pass
through verbatim, and the local file `a.png` resolves to a PNG data URI
whose payload decodes back to the bytes. -/
theorem resolve_image_input_spec_witness :
    resolveImageInput (str "/cwd") pngFs (str "https://x.test/i.png")
        = .ok (str "https://x.test/i.png")
    ∧ resolveImageInput (str "/cwd") pngFs (str "data:image/png;base64,AA==")
        = .ok (str "data:image/png;base64,AA==")
    ∧ resolveImageInput (str "/cwd") pngFs (str "a.png")
        = .ok (str "data:image/png;base64," ++ b64encode [137, 80, 78, 71])
    ∧ b64decode (b64encode [137, 80, 78, 71]) = [137, 80, 78, 71] := by
  obtain ⟨h1, h2, h3⟩ := resolve_image_input_spec (str "/cwd") pngFs
  obtain ⟨h3a, h3b⟩ := h3 (str "a.png") [137, 80, 78, 71]
    (by decide) (by decide) (by decide) (by decide) (by decide)
  exact ⟨h1 _ (by decide), h2 _ (by decide), h3a, h3b⟩

/-! ## Claim C3: validator rule order and the early returns -/

/-- Request with a custom-accepted aspect ratio *and* an end frame. -/
def c3CexReq : GenerateRequest :=
  { prompt := str "p", provider := str "xai", model := none, n := 1,
    aspectRatio := some (str "4:3"), kind := .video, format := .mp4,
    outDir := str "/d", out := none, nameBase := str "p", timestamp := str "t",
    verbose := false, inputImages := none, startFrame := none,
    endFrame := some (str "data:image/png;base64,AA=="), duration := none }

/-- C3 (counterexample): with xAI's capabilities
(`supportsCustomAspectRatio: true`, `supportsVideoInterpolation: false`),
a request carrying the aspect ratio "4:3" and an end frame passes
validation — the early `return` after custom-ratio acceptance skips the
end-frame check — although rule 3 is violated and no earlier rule is.
Validation therefore does not fail with the sub-reason of the first
violated rule, refuting the claim as stated. -/
theorem c3_counterexample :
    validateRequestForProvider c3CexReq xaiCapabilities = none
    ∧ rule1Violated c3CexReq xaiCapabilities = false
    ∧ rule2Violated c3CexReq xaiCapabilities = false
    ∧ rule3Violated c3CexReq xaiCapabilities = true := by
  decide

/-- C3 (amended): capability validation is a pure function of the
(request, capabilities) pair — determinism is immediate from the
functional embedding, so a fixed pair always passes or always fails with
the same sub-reason.  It checks the rules in the fixed order (1)
input-image count, (2) aspect ratio, (3) end frame, (4) duration, (5)
image editing, except that an aspect ratio accepted via
`supportsCustomAspectRatio` or via allow-list membership makes validation
return immediately, skipping rules 3-5; in every other case the outcome
is the sub-reason of the first violated rule in the fixed order. -/
theorem validator_order_with_early_return (req : GenerateRequest)
    (caps : ProviderCapabilities) :
    (validateRequestForProvider req caps).map ruleOfError
      = if aspectShortCircuits req caps then
          (if rule1Violated req caps then some 1 else none)
        else firstViolatedRule req caps := by
  by_cases r1 : inputImageCount req > caps.maxInputImages
  · have h1 : rule1Violated req caps = true := decide_eq_true r1
    unfold validateRequestForProvider
    rw [if_pos r1]
    by_cases hsc : aspectShortCircuits req caps
    · rw [if_pos hsc, if_pos h1]
      rfl
    · rw [if_neg hsc, find_rules_eq, if_pos h1]
      rfl
  · have h1 : rule1Violated req caps = false := by simp [rule1Violated, r1]
    unfold validateRequestForProvider
    rw [if_neg r1]
    cases hblk : aspectRatioBlock req caps with
    | acceptReturn =>
      have hsc : aspectShortCircuits req caps = true :=
        (aspectShortCircuits_iff req caps).mpr hblk
      rw [if_pos hsc, h1, if_neg Bool.false_ne_true]
      rfl
    | err e =>
      have hsc : ¬ aspectShortCircuits req caps = true := by
        rw [aspectShortCircuits_iff req caps, hblk]
        simp
      have hchk : aspectRatioCheck req caps = some e := by
        rw [aspectRatioCheck_eq_block, hblk]
      have h2 : rule2Violated req caps = true := by
        rcases Bool.eq_false_or_eq_true (rule2Violated req caps) with ht | hf
        · exact ht
        · exact absurd ((aspectRatioCheck_none_iff req caps).mpr hf) (by simp [hchk])
      rw [if_neg hsc, find_rules_eq, h1, if_neg Bool.false_ne_true, if_pos h2]
      simp [aspectRatioCheck_ruleOf hchk]
    | fallThrough =>
      have hsc : ¬ aspectShortCircuits req caps = true := by
        rw [aspectShortCircuits_iff req caps, hblk]
        simp
      have hchk : aspectRatioCheck req caps = none := by
        rw [aspectRatioCheck_eq_block, hblk]
      have h2 : rule2Violated req caps = false :=
        (aspectRatioCheck_none_iff req caps).mp hchk
      rw [if_neg hsc, find_rules_eq, h1, if_neg Bool.false_ne_true, h2,
        if_neg Bool.false_ne_true]
      by_cases r3 : (truthyStr req.endFrame && !caps.supportsVideoInterpolation) = true
      · rw [if_pos r3, if_pos (show rule3Violated req caps = true from r3)]
        rfl
      · have h3 : rule3Violated req caps = false := Bool.eq_false_iff.mpr r3
        rw [if_neg r3, h3, if_neg Bool.false_ne_true]
        cases hd : req.duration with
        | none =>
          have h4 : rule4Violated req caps = false := by simp [rule4Violated, hd]
          rw [h4, if_neg Bool.false_ne_true]
          cases hr : caps.videoDurationRange with
          | none => exact editingTail_eq req caps
          | some p => exact editingTail_eq req caps
        | some d =>
          cases hr : caps.videoDurationRange with
          | none =>
            have h4 : rule4Violated req caps = false := by simp [rule4Violated, hd, hr]
            rw [h4, if_neg Bool.false_ne_true]
            exact editingTail_eq req caps
          | some p =>
            obtain ⟨lo, hi⟩ := p
            dsimp only
            by_cases hkv : req.kind = MediaKind.video
            · by_cases hout : d < lo ∨ d > hi
              · have h4 : rule4Violated req caps = true := by
                  simp only [rule4Violated, hd, hr]
                  rcases hout with h | h <;> simp [hkv, h]
                rw [if_pos hkv, if_pos hout, if_pos h4]
                rfl
              · have h4 : rule4Violated req caps = false := by
                  simp only [rule4Violated, hd, hr]
                  rcases not_or.mp hout with ⟨hn1, hn2⟩
                  simp [hkv, hn1, hn2]
                rw [if_pos hkv, if_neg hout, h4, if_neg Bool.false_ne_true]
                exact editingTail_eq req caps
            · have h4 : rule4Violated req caps = false := by
                simp [rule4Violated, hd, hr, hkv]
              rw [if_neg hkv, h4, if_neg Bool.false_ne_true]
              exact editingTail_eq req caps
